import Mathlib

/-!
peractio/gdk: cron job execution (`pkg/cronx`) and the redis migrator (`pkg/storage/cache`).

A shallow embedding of `pkg/cronx/job.go` and `pkg/storage/cache/redis_migrator.go`.
Stateful Go code is written as explicit state passing over a `World`; code supplied by the
user of the library (interceptors, job bodies, redis clients) is a parameter.
-/

namespace Cronx

/-! ## Values shared by the package -/

/-- A non-nil Go `error` value; only the text returned by its `Error()` method is observed. -/
structure GoError where
  msg : String
deriving DecidableEq, Repr

/-- Method `Error()` of the `error` interface. -/
def GoError.Error (e : GoError) : String := e.msg

/-- Go `error`: `none` is the nil error. -/
abbrev error := Option GoError

/-- Go `context.Context`, reduced to the key/value pairs it carries. -/
abbrev Context := List (String × String)

/-- Go `context.Background()`: the empty context. -/
def Background : Context := []

/-- Modelled from the spec: the type `StatusCode` and its five constants are declared in a file
that is not under src/; the spec lists the states as Up, Running, Idle, Down, Error. -/
inductive StatusCode where
  | StatusCodeUp
  | StatusCodeRunning
  | StatusCodeIdle
  | StatusCodeDown
  | StatusCodeError
deriving DecidableEq, Repr

open StatusCode

/-- The `uint32` constants `statusDown`, `statusUp`, `statusRunning`, `statusIdle` and
`statusError` stored in `Job.status`. Their declaration is not under src/, so their values are a
parameter of the development. -/
structure StatusConsts where
  statusDown : Nat
  statusUp : Nat
  statusRunning : Nat
  statusIdle : Nat
  statusError : Nat
deriving DecidableEq, Repr

/-- The four constants used as `case` labels in `UpdateStatus` are pairwise different; the Go
compiler rejects an expression switch with a repeated constant label. -/
def StatusConsts.casesDistinct (k : StatusConsts) : Bool :=
  k.statusRunning != k.statusIdle && k.statusRunning != k.statusDown &&
  k.statusRunning != k.statusError && k.statusIdle != k.statusDown &&
  k.statusIdle != k.statusError && k.statusDown != k.statusError

/-! ## A fragment of Go's runtime types, as seen through package `reflect` -/

/-- Go `reflect.Kind`. -/
inductive Kind where
  | Bool | Int | Uint | Float | Complex | String | UnsafePointer
  | Array | Chan | Func | Interface | Map | Pointer | Slice | Struct
deriving DecidableEq, Repr

/-- Go types that can be the dynamic type of an interface value. `text` of an unnamed function,
struct or interface type is its printed form, e.g. `func()` or `struct { cronx.JobItf }`. -/
inductive GoType where
  | basic (name : String) (kind : Kind)
  | defined (pkg : String) (name : String) (underlying : GoType)
  | pointer (elem : GoType)
  | slice (elem : GoType)
  | array (len : Nat) (elem : GoType)
  | chan (elem : GoType)
  | map (key : GoType) (elem : GoType)
  | func (text : String)
  | struct (text : String)
  | iface (text : String)
deriving DecidableEq, Repr

/-- Method `reflect.Type.Kind`. -/
def GoType.Kind : GoType → Kind
  | .basic _ k => k
  | .defined _ _ u => u.Kind
  | .pointer _ => .Pointer
  | .slice _ => .Slice
  | .array _ _ => .Array
  | .chan _ => .Chan
  | .map _ _ => .Map
  | .func _ => .Func
  | .struct _ => .Struct
  | .iface _ => .Interface

/-- Method `reflect.Type.Name`: the name of a defined or predeclared type, and the empty string
for every other type. -/
def GoType.Name : GoType → String
  | .basic n _ => n
  | .defined _ n _ => n
  | _ => ""

/-- Method `reflect.Type.String`. -/
def GoType.String : GoType → String
  | .basic n _ => n
  | .defined p n _ => p ++ "." ++ n
  | .pointer e => "*" ++ e.String
  | .slice e => "[]" ++ e.String
  | .array n e => "[" ++ toString n ++ "]" ++ e.String
  | .chan e => "chan " ++ e.String
  | .map k e => "map[" ++ k.String ++ "]" ++ e.String
  | .func t => t
  | .struct t => t
  | .iface t => t

/-- Method `reflect.Type.Elem`: the element type of an array, channel, map, pointer or slice type;
for a type of any other kind the call panics, which is the `none` result. -/
def GoType.Elem : GoType → Option GoType
  | .defined _ _ u => u.Elem
  | .pointer e => some e
  | .slice e => some e
  | .array _ e => some e
  | .chan e => some e
  | .map _ e => some e
  | _ => none

/-! ## Jobs -/

/-- A non-nil value of interface type `JobItf`: its dynamic type, and `impl`, which identifies
the value (and so the body of its `Run` method) among the user's code. -/
structure JobItfValue where
  typ : GoType
  impl : Nat
deriving DecidableEq, Repr

/-- Go interface `JobItf`; `none` is the nil interface value. -/
abbrev JobItf := Option JobItfValue

/-- Go struct `Job`. `status` is the `uint32` read and written atomically, `running` is the
`sync.Mutex` (`true` when locked). -/
structure Job where
  Name : String
  Status : StatusCode
  Latency : String
  Error : String
  EntryID : Int
  inner : JobItf
  status : Nat
  running : Bool
deriving DecidableEq, Repr

/-- Program state: the `Job` values by address, the clock reading `time.Now()` returns (in
nanoseconds), and `ext`, everything else user code can read or write. -/
structure World where
  jobs : Nat → Job
  now : Nat
  ext : List String

/-- Replace the `Job` stored at address `p`. -/
def World.setJob (w : World) (p : Nat) (j : Job) : World :=
  { w with jobs := fun q => if q = p then j else w.jobs q }

/-- How a call of effectful code ends. -/
inductive Outcome (α : Type) where
  /-- Normal return with a value. -/
  | ret (a : α) (w : World)
  /-- A panic propagates out of the call (deferred calls of the callee have run). -/
  | panic (v : String) (w : World)
  /-- The goroutine is parked on a mutex that nobody will release. -/
  | blocked (w : World)
  /-- The Go runtime aborts the process (`fatal error`); deferred calls do not run. -/
  | fatal (m : String) (w : World)

/-- The state in which a call ended. -/
def Outcome.world {α : Type} : Outcome α → World
  | .ret _ w => w
  | .panic _ w => w
  | .blocked w => w
  | .fatal _ w => w

/-- The handler type `func(ctx context.Context, job *Job) error`; a `*Job` is `none` when nil. -/
abbrev Handler := Context → Option Nat → World → Outcome error

/-- Code that `job.go` calls but does not define. -/
structure Env where
  /-- The function held in `commandController.Interceptor`. -/
  Interceptor : Context → Option Nat → Handler → World → Outcome error
  /-- Method `Run(ctx)` of a `JobItf` value. -/
  innerRun : JobItfValue → Context → World → Outcome error
  /-- Method `time.Duration.String`. -/
  durationString : Int → String

/-- The panic value of a nil dereference. -/
def nilDeref : String := "runtime error: invalid memory address or nil pointer dereference"

/-- Method `(*sync.Mutex).Lock` on `j.running`: `none` when the mutex is held, in which case the
caller waits. -/
def lockRunning (j : Nat) (w : World) : Option World :=
  if (w.jobs j).running then none
  else some (w.setJob j { w.jobs j with running := true })

/-- Method `(*sync.Mutex).Unlock` on `j.running`: unlocking a mutex that is not locked is a fatal
runtime error. -/
def unlockRunning (j : Nat) (w : World) : Option World :=
  if (w.jobs j).running then some (w.setJob j { w.jobs j with running := false })
  else none

/-- Go `atomic.StoreUint32(&j.status, v)`. -/
def storeStatus (j : Nat) (v : Nat) (w : World) : World :=
  w.setJob j { w.jobs j with status := v }

/-- Go `time.Since(start)` as an `int64` count of nanoseconds: the difference of the two clock
readings, saturated at the bounds of `time.Duration`. -/
def since (start : Nat) (w : World) : Int :=
  max (-(2 ^ 63 : Int)) (min ((w.now : Int) - (start : Int)) (2 ^ 63 - 1))

/-- Source `Job.UpdateStatus` (job.go 29-44) on a `Job` value: the status code chosen by the
switch over `j.status`, cases tried in source order. -/
def Job.statusCode (k : StatusConsts) (j : Job) : StatusCode :=
  if j.status = k.statusRunning then StatusCodeRunning
  else if j.status = k.statusIdle then StatusCodeIdle
  else if j.status = k.statusDown then StatusCodeDown
  else if j.status = k.statusError then StatusCodeError
  else StatusCodeUp

/-- Source `Job.UpdateStatus` (job.go 29-44): writes the chosen code to `j.Status` and returns
it. -/
def Job.UpdateStatus (k : StatusConsts) (j : Nat) (w : World) : StatusCode × World :=
  let s := (w.jobs j).statusCode k
  (s, w.setJob j { w.jobs j with Status := s })

/-- The function literal passed to the interceptor in `Job.Run` (job.go 60-62):
`func(ctx, job) error { return job.inner.Run(ctx) }`. -/
def Job.Run.handler (env : Env) : Handler := fun ctx job w =>
  match job with
  | none => .panic nilDeref w
  | some p =>
    match (w.jobs p).inner with
    | none => .panic nilDeref w
    | some v => env.innerRun v ctx w

/-- The deferred `j.running.Unlock()` (job.go 53): runs when the rest of `Run` returns or
panics, and not when it never finishes. -/
def Job.Run.deferred (j : Nat) : Outcome Unit → Outcome Unit
  | .ret a w =>
    match unlockRunning j w with
    | some w1 => .ret a w1
    | none => .fatal "sync: unlock of unlocked mutex" w
  | .panic v w =>
    match unlockRunning j w with
    | some w1 => .panic v w1
    | none => .fatal "sync: unlock of unlocked mutex" w
  | .blocked w => .blocked w
  | .fatal m w => .fatal m w

/-- Source `Job.Run` lines 55-57: the state in which the interceptor is invoked, given the state
right after the lock was taken. -/
def Job.Run.enter (k : StatusConsts) (j : Nat) (w : World) : World :=
  let w := storeStatus j k.statusRunning w
  (Job.UpdateStatus k j w).2

/-- Source `Job.Run` lines 62-73: what follows the return of the interceptor with `err`. -/
def Job.Run.finish (k : StatusConsts) (env : Env) (j : Nat) (start : Nat) (err : error)
    (w : World) : World :=
  let w :=
    match err with
    | some e => storeStatus j k.statusError (w.setJob j { w.jobs j with Error := e.Error })
    | none => storeStatus j k.statusIdle w
  let w := w.setJob j { w.jobs j with Latency := env.durationString (since start w) }
  (Job.UpdateStatus k j w).2

/-- Source `Job.Run` lines 55-73, the section executed while the lock is held: `start` and `ctx`
are the locals set on lines 48-49, `w` the state right after the lock was taken. -/
def Job.Run.locked (k : StatusConsts) (env : Env) (j : Nat) (start : Nat) (ctx : Context)
    (w : World) : Outcome Unit :=
  match env.Interceptor ctx (some j) (Job.Run.handler env) (Job.Run.enter k j w) with
  | .ret err w => .ret () (Job.Run.finish k env j start err w)
  | .panic v w => .panic v w
  | .blocked w => .blocked w
  | .fatal m w => .fatal m w

/-- Source `Job.Run` (job.go 47-74), for a non-nil receiver at address `j`. -/
def Job.Run (k : StatusConsts) (env : Env) (j : Nat) (w : World) : Outcome Unit :=
  let start := w.now
  let ctx := Background
  match lockRunning j w with
  | none => .blocked w
  | some w => Job.Run.deferred j (Job.Run.locked k env j start ctx w)

/-- Source `NewJob` (job.go 76-95); the result is the `Job` the returned pointer refers to, or
the value of the panic that leaves `NewJob`. `reflect.TypeOf(job)` is the dynamic type of `job`,
and is nil for a nil interface value, on which the call of `Name` panics. The fields the literal
leaves out get their zero values. -/
def NewJob (k : StatusConsts) (job : JobItf) : Except String Job :=
  match job with
  | none => .error nilDeref
  | some v =>
    let name := v.typ.Name
    let name : Option String :=
      if name = "" then v.typ.Elem.map GoType.Name else some name
    match name with
    | none => .error ("reflect: Elem of invalid type " ++ v.typ.String)
    | some name =>
      let name := if name = "" then v.typ.String else name
      let name := if name = "Func" then "(nameless)" else name
      .ok { Name := name, Status := StatusCodeUp, Latency := "", Error := "", EntryID := 0,
            inner := job, status := k.statusUp, running := false }

/-! ## The controller (not under src/) -/

/-- Modelled from the spec: the external trigger engine, a collaborator that "accepts
`(spec, callback) → (entryID, error)`"; of its state only the last entry id it handed out and the
specs it holds are kept. -/
structure Trigger where
  lastID : Int
  specs : List (Int × String)
deriving DecidableEq, Repr

/-- Modelled from the spec: the Controller of `cronx.go`, which is not under src/. `trigger` is
the "handle to the external trigger engine; nil denotes uninitialized", `registry` the "map of
entry-id → Job". -/
structure Controller where
  trigger : Option Trigger
  registry : List (Int × Job)
deriving DecidableEq, Repr

/-- Modelled from the spec: `Schedule(spec, job) error` of `cronx.go`, which is not under src/:
"validates `spec` against the external trigger engine's grammar; on success, wraps `job` in a new
Job, registers it with the trigger engine, stores it in the registry keyed by the returned entry
id. Returns an error (without registering) if the Controller is uninitialized or `spec` is
malformed." The grammar is the parameter `validSpec`; wrapping is `NewJob`, whose panic leaves
`Schedule`. The result is the returned error and the controller afterwards. -/
def Schedule (validSpec : String → Bool) (k : StatusConsts) (c : Controller) (spec : String)
    (job : JobItf) : Except String (error × Controller) :=
  match c.trigger with
  | none => .ok (some { msg := "cronx has not been initialized" }, c)
  | some t =>
    if validSpec spec then
      match NewJob k job with
      | .error v => .error v
      | .ok j =>
        let id := t.lastID + 1
        .ok (none,
          { trigger := some { lastID := id, specs := t.specs ++ [(id, spec)] }
            registry := c.registry ++ [(id, { j with EntryID := id })] })
    else .ok (some { msg := "invalid schedule: " ++ spec }, c)

/-- Modelled from the spec: `GetEntries() []Job` of `cronx.go`, which is not under src/: "returns
a snapshot (copy, not a live view) of every registered Job's current fields; returns nil if
uninitialized"; `none` is the nil slice. -/
def GetEntries (c : Controller) : Option (List Job) :=
  match c.trigger with
  | none => none
  | some _ => some (c.registry.map Prod.snd)

/-- Whether a call returned normally. -/
def Outcome.isRet {α : Type} : Outcome α → Bool
  | .ret _ _ => true
  | _ => false

/-- The environment `env` with a probe in front of its interceptor: the probe aborts the process
unless the job it is handed has `Status` Running (and `status` `statusRunning`), and otherwise
runs the interceptor of `env`. -/
def Env.checkedRunning (k : StatusConsts) (env : Env) : Env :=
  { env with
    Interceptor := fun ctx job next w =>
      match job with
      | some p =>
        if (w.jobs p).Status = StatusCodeRunning ∧ (w.jobs p).status = k.statusRunning then
          env.Interceptor ctx job next w
        else .fatal "job is not marked running" w
      | none => .fatal "job is not marked running" w }

/-! ## Goroutines executing `Run`: one atomic action at a time -/

/-- How the section of `Run` under the lock was left. -/
inductive Exit where
  | returned
  | panicked (v : String)
deriving DecidableEq, Repr

/-- Where a goroutine that executes `j.Run()` stands. `start` is the local set on line 48. -/
inductive Pc where
  /-- Before line 48. -/
  | begin
  /-- At line 52, calling `j.running.Lock()`. -/
  | atLock (start : Nat)
  /-- The lock is taken and the unlock deferred; before line 56. -/
  | holding (start : Nat)
  /-- Lines 60-62: the call of the interceptor has begun and has not ended. -/
  | inChain (start : Nat)
  /-- The interceptor returned `err`; lines 62-73 are still to do. -/
  | chainDone (start : Nat) (err : error)
  /-- The deferred `j.running.Unlock()` is about to run. -/
  | leaving (e : Exit)
  /-- `Run` has been left. -/
  | done (e : Exit)
  /-- The interceptor never returns. -/
  | stuck
  /-- The runtime aborted the process in this goroutine. -/
  | aborted (m : String)
deriving DecidableEq, Repr

/-- Whether a goroutine at this point has taken the lock and not yet released it. -/
def Pc.critical : Pc → Bool
  | .holding _ => true
  | .inChain _ => true
  | .chainDone _ _ => true
  | .leaving _ => true
  | .stuck => true
  | .aborted _ => true
  | _ => false

/-- A goroutine started by the trigger engine for one firing: the job whose `Run` it executes, and
where it stands. -/
structure Thread where
  job : Nat
  pc : Pc
deriving DecidableEq, Repr

/-- The goroutines by number, the state they share, and whether the process is alive. -/
structure Config where
  threads : Nat → Thread
  world : World
  alive : Bool

/-- Goroutine `t` moves to `pc`, leaving the shared state `w`. -/
def Config.move (c : Config) (t : Nat) (pc : Pc) (w : World) : Config :=
  { c with
    threads := fun u => if u = t then { c.threads t with pc := pc } else c.threads u
    world := w }

/-- Source `Job.Run` (job.go 47-74), one atomic action of goroutine `t`: `none` when `t` cannot
move (it waits for the lock, has left `Run`, never returns from the interceptor, or the process is
dead). The call of the interceptor begins with the move to `inChain` and ends with the move out of
it, where its whole effect is applied. -/
def stepThread (k : StatusConsts) (env : Env) (t : Nat) (c : Config) : Option Config :=
  if c.alive then
    let j := (c.threads t).job
    let w := c.world
    match (c.threads t).pc with
    | .begin => some (c.move t (.atLock w.now) w)
    | .atLock start =>
      match lockRunning j w with
      | none => none
      | some w1 => some (c.move t (.holding start) w1)
    | .holding start => some (c.move t (.inChain start) (Job.Run.enter k j w))
    | .inChain start =>
      match env.Interceptor Background (some j) (Job.Run.handler env) w with
      | .ret err w1 => some (c.move t (.chainDone start err) w1)
      | .panic v w1 => some (c.move t (.leaving (.panicked v)) w1)
      | .blocked w1 => some (c.move t .stuck w1)
      | .fatal m w1 => some { c.move t (.aborted m) w1 with alive := false }
    | .chainDone start err =>
      some (c.move t (.leaving .returned) (Job.Run.finish k env j start err w))
    | .leaving e =>
      match unlockRunning j w with
      | some w1 => some (c.move t (.done e) w1)
      | none => some { c.move t (.aborted "sync: unlock of unlocked mutex") w with alive := false }
    | .done _ => none
    | .stuck => none
    | .aborted _ => none
  else none

/-- Time passes: the clock advances by `d` nanoseconds. -/
def Config.tick (c : Config) (d : Nat) : Config :=
  { c with world := { c.world with now := c.world.now + d } }

/-- A configuration before any firing has begun `Run`: every goroutine is before line 48 and no
job's lock is held. -/
def Config.Initial (c : Config) : Prop :=
  c.alive = true ∧ (∀ t, (c.threads t).pc = .begin) ∧ ∀ j, (c.world.jobs j).running = false

/-- The configurations reached from an initial one by actions of the goroutines, in any order,
and by the passing of time. -/
inductive Reachable (k : StatusConsts) (env : Env) : Config → Prop where
  | init (c : Config) (h : c.Initial) : Reachable k env c
  | step (c c1 : Config) (t : Nat) (h : Reachable k env c) (hs : stepThread k env t c = some c1) :
      Reachable k env c1
  | tick (c : Config) (d : Nat) (h : Reachable k env c) : Reachable k env (c.tick d)

/-- `n` actions of goroutine `t` in a row; `none` if one of them is not possible. -/
def stepsOf (k : StatusConsts) (env : Env) (t : Nat) : Nat → Config → Option Config
  | 0, c => some c
  | n + 1, c => (stepThread k env t c).bind (stepsOf k env t n)

/-- The configurations reached from `c` by actions of the goroutines, in any order, and by the
passing of time. -/
inductive Steps (k : StatusConsts) (env : Env) (c : Config) : Config → Prop where
  | refl : Steps k env c c
  | step (c1 c2 : Config) (t : Nat) (h : Steps k env c c1)
      (hs : stepThread k env t c1 = some c2) : Steps k env c c2
  | tick (c1 : Config) (d : Nat) (h : Steps k env c c1) : Steps k env c (c1.tick d)

/-- The value of the local `start` of a goroutine, where it still needs it. -/
def Pc.startOf : Pc → Option Nat
  | .atLock start => some start
  | .holding start => some start
  | .inChain start => some start
  | .chainDone start _ => some start
  | _ => none

/-- The interceptor chain of `env`, invoked with the handler of `Run`, leaves the lock of every
job as it found it: the mutex is an unexported field that only `Run` locks and unlocks. -/
def Env.KeepsLocks (env : Env) : Prop :=
  ∀ (j : Nat) (w : World) (q : Nat),
    (((env.Interceptor Background (some j) (Job.Run.handler env) w).world).jobs q).running
      = (w.jobs q).running

/-- The interceptor chain of `env`, invoked with the handler of `Run`, leaves the fields `Status`
and `status` of every job as it found them: neither an interceptor nor a job body writes them. -/
def Env.KeepsStatus (env : Env) : Prop :=
  ∀ (j : Nat) (w : World) (q : Nat),
    (((env.Interceptor Background (some j) (Job.Run.handler env) w).world).jobs q).Status
      = (w.jobs q).Status ∧
    (((env.Interceptor Background (some j) (Job.Run.handler env) w).world).jobs q).status
      = (w.jobs q).status

/-- The lock discipline of a set of goroutines `th` over a shared state `w`: a goroutine between
its `Lock` and its `Unlock` finds its job's lock held; two such goroutines of one job are the same
goroutine; and a lock that is held is held by some goroutine. -/
def LockInv (th : Nat → Thread) (w : World) : Prop :=
  (∀ t, (th t).pc.critical = true → (w.jobs (th t).job).running = true) ∧
  (∀ t1 t2, (th t1).pc.critical = true → (th t2).pc.critical = true →
    (th t1).job = (th t2).job → t1 = t2) ∧
  (∀ j, (w.jobs j).running = true → ∃ t, (th t).job = j ∧ (th t).pc.critical = true)

/-- The goroutines listed in `sched` act one after the other, each taking one action; a
goroutine that cannot move when its turn comes is passed over. -/
def runSchedule (k : StatusConsts) (env : Env) : List Nat → Config → Config
  | [], c => c
  | t :: sched, c =>
    match stepThread k env t c with
    | some c1 => runSchedule k env sched c1
    | none => runSchedule k env sched c

/-! ## Concrete data used to evaluate the definitions -/

/-- Sample values of the status constants. -/
def sampleConsts : StatusConsts :=
  { statusDown := 0, statusUp := 1, statusRunning := 2, statusIdle := 3, statusError := 4 }

/-- The dynamic type of a value `main.AlwaysError{}` (example/main.go 31). -/
def typAlwaysError : GoType := .defined "main" "AlwaysError" (.struct "struct \x7b\x7d")

/-- A freshly registered job wrapping a value whose `Run` is body number `impl`. -/
def sampleJob (impl : Nat) : Job :=
  { Name := "AlwaysError", Status := StatusCodeUp, Latency := "", Error := "", EntryID := 1,
    inner := some { typ := typAlwaysError, impl := impl }, status := 1, running := false }

/-- A state whose every address holds `sampleJob impl`. -/
def sampleWorld (impl : Nat) : World :=
  { jobs := fun _ => sampleJob impl, now := 0, ext := [] }

/-- Sample user code. The interceptor adds nothing and calls the handler once. Body 0 always
fails with the message `boom`; body 1 always succeeds; body 2 panics; every other body fails on
its first call and succeeds afterwards, recording in `ext` that it was called. Every body takes
five nanoseconds. -/
def sampleEnv : Env :=
  { Interceptor := fun ctx job next w => next ctx job w
    innerRun := fun v _ w =>
      let w1 : World := { w with now := w.now + 5 }
      if v.impl = 0 then .ret (some { msg := "boom" }) w1
      else if v.impl = 1 then .ret none w1
      else if v.impl = 2 then .panic "bang" w1
      else if w.ext = [] then .ret (some { msg := "boom" }) { w1 with ext := ["called"] }
      else .ret none w1
    durationString := fun d => toString d ++ "ns" }

/-- The dynamic type of `cronx.Func(func(context.Context) error {...})` (example/main.go 148). -/
def typFunc : GoType := .defined "cronx" "Func" (.func "func(context.Context) error")

/-- The dynamic type of a value `main.SendEmail{}` (example/main.go 17). -/
def typSendEmail : GoType := .defined "main" "SendEmail" (.struct "struct \x7b\x7d")

/-- The dynamic type of `&struct{ cronx.JobItf }{...}`: a pointer to an unnamed struct type that
gets its `Run` method from the embedded interface. -/
def typPtrUnnamed : GoType := .pointer (.struct "struct \x7b cronx.JobItf \x7d")

/-- The dynamic type of `struct{ cronx.JobItf }{...}`. -/
def typUnnamed : GoType := .struct "struct \x7b cronx.JobItf \x7d"

/-- The dynamic type of a value of a user's `type Func struct{}` in package `main`. -/
def typUserFunc : GoType := .defined "main" "Func" (.struct "struct \x7b\x7d")

/-- Every goroutine is a firing of the job at address 0 and has not begun `Run`; the job's body
is number `impl`. -/
def sampleConfig (impl : Nat) : Config :=
  { threads := fun _ => { job := 0, pc := .begin }, world := sampleWorld impl, alive := true }

/-- The printed form of a context. -/
def showContext (ctx : Context) : String :=
  String.intercalate "," (ctx.map (fun p => p.1 ++ "=" ++ p.2))

/-- A job body that records in `ext` the context it was run with, and succeeds. -/
def recordingBody : JobItfValue → Context → World → Outcome error :=
  fun _ ctx w => .ret none { w with ext := w.ext ++ [showContext ctx] }

/-- An interceptor that returns the error `denied` without calling its handler, over a job body
that would abort the process if it ran. -/
def shortCircuitEnv : Env :=
  { Interceptor := fun _ _ _ w => .ret (some { msg := "denied" }) w
    innerRun := fun _ _ w => .fatal "the body ran" w
    durationString := fun d => toString d ++ "ns" }

/-- An interceptor that adds a request id to the context and calls its handler once, over the
recording body. -/
def derivingEnv : Env :=
  { Interceptor := fun ctx job next w => next (("request-id", "42") :: ctx) job w
    innerRun := recordingBody
    durationString := fun d => toString d ++ "ns" }

/-- An interceptor that calls its handler twice, telling the attempts apart in the context, over
the recording body. -/
def retryingEnv : Env :=
  { Interceptor := fun ctx job next w =>
      match next (("attempt", "1") :: ctx) job w with
      | .ret _ w1 => next (("attempt", "2") :: ctx) job w1
      | o => o
    innerRun := recordingBody
    durationString := fun d => toString d ++ "ns" }

/-- Two firings of the sample job whose body succeeds after five nanoseconds, at clock reading 0:
the first firing has entered the interceptor chain, the second has not begun `Run`. -/
def enteredConfig : Config :=
  runSchedule sampleConsts sampleEnv [0, 0, 0] (sampleConfig 1)

/-- After `enteredConfig`: the second firing begins `Run` and calls `Lock`, which is held; then
100 nanoseconds pass. -/
def waitingConfig : Config :=
  (runSchedule sampleConsts sampleEnv [1, 1] enteredConfig).tick 100

/-- After `waitingConfig`: the first firing ends its chain, finishes and unlocks; the second takes
the lock and marks the job running. -/
def lockedConfig : Config :=
  runSchedule sampleConsts sampleEnv [0, 0, 0, 1, 1] waitingConfig

/-- After `lockedConfig`: the interceptor chain of the second firing has returned. -/
def returnedConfig : Config :=
  runSchedule sampleConsts sampleEnv [1] lockedConfig

/-- After `returnedConfig`: the second firing has executed lines 62-73. -/
def finishedConfig : Config :=
  runSchedule sampleConsts sampleEnv [1] returnedConfig

/-- The text of a status code. -/
def statusText : StatusCode → String
  | StatusCodeUp => "UP"
  | StatusCodeRunning => "RUNNING"
  | StatusCodeIdle => "IDLE"
  | StatusCodeDown => "DOWN"
  | StatusCodeError => "ERROR"

/-- A chain of two interceptors over a job body that succeeds: the outer one writes
`StatusCodeDown` to the exported field `Status` of the job it is handed, the inner one records in
`ext` the `Status` it finds in the job it is handed and calls the handler. -/
def meddlingEnv : Env :=
  { Interceptor := fun ctx job next w =>
      match job with
      | some p =>
        let w1 := w.setJob p { w.jobs p with Status := StatusCodeDown }
        next ctx job { w1 with ext := w1.ext ++ [statusText (w1.jobs p).Status] }
      | none => next ctx job w
    innerRun := fun _ _ w => .ret none w
    durationString := fun d => toString d ++ "ns" }

/-- A grammar that accepts the one spec `@every 5m`. -/
def sampleValidSpec (spec : String) : Bool := spec == "@every 5m"

/-- A controller after `Default()`: initialised, nothing registered. -/
def sampleController : Controller :=
  { trigger := some { lastID := 0, specs := [] }, registry := [] }

end Cronx

namespace Cache

open Cronx (Context Background)

/-! ## The redis migrator (`pkg/storage/cache/redis_migrator.go`) -/

/-- Non-nil `error` values met by the migrator: an error reported by a redis client, and
`E err op`. Modelled from the spec: `errorx.E` is not under src/ (only its test is); `E err op`
is the value of the call `errorx.E(err, op)`, a structured failure holding the "operation name"
and the "underlying cause". -/
inductive CacheError where
  | client (text : String)
  | E (err : CacheError) (op : String)
deriving DecidableEq, Repr

/-- Go `error`: `none` is the nil error. -/
abbrev error := Option CacheError

/-- Go `[]byte`; the nil slice is `none` of `Option Bytes`. -/
abbrev Bytes := List UInt8

/-- A value of type `interface{}` given to `Del` as a key. -/
inductive Any where
  | str (s : String)
  | int (n : Int)
  | null
deriving DecidableEq, Repr

/-- The pair `(res, err)` a client method returns. -/
structure Reply (α : Type) where
  res : α
  err : error
deriving DecidableEq, Repr

/-- The interface `RedisItf`. Its declaration is not under src/; the methods are those the
migrator calls, with the signatures of `GoRedisClusterV8` (goredis_v8_cluster.go), which
implements it. A client is a parameter: for a client whose state has type `σ`, a method takes the
state before the call and gives the returned values and the state after it. `SetEX` returns only
an error. -/
structure RedisItf (σ : Type) where
  Get : Context → String → σ → Reply (Option Bytes) × σ
  SetEX : Context → String → Int → String → σ → error × σ
  Exists : Context → String → σ → Reply Bool × σ
  Expire : Context → String → Int → σ → Reply Bool × σ
  TTL : Context → String → σ → Reply Int × σ
  HGet : Context → String → String → σ → Reply (Option Bytes) × σ
  HExists : Context → String → String → σ → Reply Bool × σ
  HSet : Context → String → String → String → σ → Reply Bool × σ
  Del : Context → List Any → σ → Reply Int × σ
  Close : σ → σ

/-- Go struct `RedisMigrator` (redis_migrator.go 23-26). -/
structure RedisMigrator (σo σd : Type) where
  origin : RedisItf σo
  destination : RedisItf σd

/-- A method call on a client, with its arguments. -/
inductive Command where
  | Get (ctx : Context) (key : String)
  | SetEX (ctx : Context) (key : String) (seconds : Int) (value : String)
  | Exists (ctx : Context) (key : String)
  | Expire (ctx : Context) (key : String) (seconds : Int)
  | TTL (ctx : Context) (key : String)
  | HGet (ctx : Context) (key : String) (field : String)
  | HExists (ctx : Context) (key : String) (field : String)
  | HSet (ctx : Context) (key : String) (field : String) (value : String)
  | Del (ctx : Context) (key : List Any)
  | Close
deriving DecidableEq, Repr

/-- Which of the two instances a call goes to. -/
inductive Target where
  | origin
  | destination
deriving DecidableEq, Repr

/-- One call made by the migrator. -/
structure Call where
  target : Target
  cmd : Command
deriving DecidableEq, Repr

/-- The state the migrator works on: the state of the origin (old) instance, the state of the
destination (new) instance, and the record of the calls made to them so far, oldest first. The
two instances are distinct. -/
structure Store (σo σd : Type) where
  origin : σo
  destination : σd
  calls : List Call

/-- A call `f` of a method of `r.origin`, recorded as `c`. -/
def callOrigin {σo σd α : Type} (f : σo → α × σo) (c : Command) (s : Store σo σd) :
    α × Store σo σd :=
  ((f s.origin).1, { s with origin := (f s.origin).2, calls := s.calls ++ [⟨.origin, c⟩] })

/-- A call `f` of a method of `r.destination`, recorded as `c`. -/
def callDestination {σo σd α : Type} (f : σd → α × σd) (c : Command) (s : Store σo σd) :
    α × Store σo σd :=
  ((f s.destination).1,
    { s with destination := (f s.destination).2, calls := s.calls ++ [⟨.destination, c⟩] })

variable {σo σd : Type}

/-- Source `RedisMigrator.Get` (redis_migrator.go 40-60). The calls of `logx.DBG` only write to
the log and are left out, here and below. -/
def RedisMigrator.Get (r : RedisMigrator σo σd) (ctx : Context) (key : String)
    (s : Store σo σd) : Reply (Option Bytes) × Store σo σd :=
  let op := "cache/RedisMigrator.Get"
  let d := callDestination (r.destination.Get ctx key) (.Get ctx key) s
  if d.1.err = none ∧ d.1.res ≠ none then (⟨d.1.res, none⟩, d.2)
  else
    let o := callOrigin (r.origin.Get ctx key) (.Get ctx key) d.2
    match o.1.err with
    | some err => (⟨none, some (.E err op)⟩, o.2)
    | none => (⟨o.1.res, none⟩, o.2)

/-- Source `RedisMigrator.SetEX` (redis_migrator.go 62-79). -/
def RedisMigrator.SetEX (r : RedisMigrator σo σd) (ctx : Context) (key : String) (seconds : Int)
    (value : String) (s : Store σo σd) : error × Store σo σd :=
  let op := "cache/RedisMigrator.SetEX"
  let d := callDestination (r.destination.SetEX ctx key seconds value)
    (.SetEX ctx key seconds value) s
  match d.1 with
  | some err => (some (.E err op), d.2)
  | none => (none, d.2)

/-- Source `RedisMigrator.Exists` (redis_migrator.go 81-101). -/
def RedisMigrator.Exists (r : RedisMigrator σo σd) (ctx : Context) (key : String)
    (s : Store σo σd) : Reply Bool × Store σo σd :=
  let op := "cache/RedisMigrator.Exists"
  let d := callDestination (r.destination.Exists ctx key) (.Exists ctx key) s
  if d.1.err = none ∧ d.1.res = true then (⟨true, none⟩, d.2)
  else
    let o := callOrigin (r.origin.Exists ctx key) (.Exists ctx key) d.2
    match o.1.err with
    | some err => (⟨false, some (.E err op)⟩, o.2)
    | none => (⟨o.1.res, none⟩, o.2)

/-- Source `RedisMigrator.Expire` (redis_migrator.go 103-120). -/
def RedisMigrator.Expire (r : RedisMigrator σo σd) (ctx : Context) (key : String)
    (seconds : Int) (s : Store σo σd) : Reply Bool × Store σo σd :=
  let o := callOrigin (r.origin.Expire ctx key seconds) (.Expire ctx key seconds) s
  let d := callDestination (r.destination.Expire ctx key seconds) (.Expire ctx key seconds) o.2
  (⟨d.1.res, d.1.err⟩, d.2)

/-- Source `RedisMigrator.TTL` (redis_migrator.go 122-142). -/
def RedisMigrator.TTL (r : RedisMigrator σo σd) (ctx : Context) (key : String)
    (s : Store σo σd) : Reply Int × Store σo σd :=
  let op := "cache/RedisMigrator.TTL"
  let d := callDestination (r.destination.TTL ctx key) (.TTL ctx key) s
  if d.1.err = none ∧ d.1.res > 0 then (⟨d.1.res, none⟩, d.2)
  else
    let o := callOrigin (r.origin.TTL ctx key) (.TTL ctx key) d.2
    match o.1.err with
    | some err => (⟨0, some (.E err op)⟩, o.2)
    | none => (⟨o.1.res, none⟩, o.2)

/-- Source `RedisMigrator.HGet` (redis_migrator.go 144-164). -/
def RedisMigrator.HGet (r : RedisMigrator σo σd) (ctx : Context) (key field : String)
    (s : Store σo σd) : Reply (Option Bytes) × Store σo σd :=
  let op := "cache/RedisMigrator.HGet"
  let d := callDestination (r.destination.HGet ctx key field) (.HGet ctx key field) s
  if d.1.err = none ∧ d.1.res ≠ none then (⟨d.1.res, none⟩, d.2)
  else
    let o := callOrigin (r.origin.HGet ctx key field) (.HGet ctx key field) d.2
    match o.1.err with
    | some err => (⟨none, some (.E err op)⟩, o.2)
    | none => (⟨o.1.res, none⟩, o.2)

/-- Source `RedisMigrator.HExists` (redis_migrator.go 166-186); its `op` constant is the text
`cache/RedisMigrator.HGet`, as in the source. -/
def RedisMigrator.HExists (r : RedisMigrator σo σd) (ctx : Context) (key field : String)
    (s : Store σo σd) : Reply Bool × Store σo σd :=
  let op := "cache/RedisMigrator.HGet"
  let d := callDestination (r.destination.HExists ctx key field) (.HExists ctx key field) s
  if d.1.err = none ∧ d.1.res = true then (⟨true, none⟩, d.2)
  else
    let o := callOrigin (r.origin.HExists ctx key field) (.HExists ctx key field) d.2
    match o.1.err with
    | some err => (⟨false, some (.E err op)⟩, o.2)
    | none => (⟨o.1.res, none⟩, o.2)

/-- Source `RedisMigrator.HSet` (redis_migrator.go 188-200). -/
def RedisMigrator.HSet (r : RedisMigrator σo σd) (ctx : Context) (key field value : String)
    (s : Store σo σd) : Reply Bool × Store σo σd :=
  let op := "cache/RedisMigrator.HSet"
  let d := callDestination (r.destination.HSet ctx key field value) (.HSet ctx key field value) s
  match d.1.err with
  | some err => (⟨false, some (.E err op)⟩, d.2)
  | none => (⟨d.1.res, none⟩, d.2)

/-- Source `RedisMigrator.Del` (redis_migrator.go 202-219). -/
def RedisMigrator.Del (r : RedisMigrator σo σd) (ctx : Context) (key : List Any)
    (s : Store σo σd) : Reply Int × Store σo σd :=
  let o := callOrigin (r.origin.Del ctx key) (.Del ctx key) s
  let d := callDestination (r.destination.Del ctx key) (.Del ctx key) o.2
  (⟨d.1.res, d.1.err⟩, d.2)

/-- Source `RedisMigrator.Close` (redis_migrator.go 221-225). -/
def RedisMigrator.Close (r : RedisMigrator σo σd) (s : Store σo σd) : Store σo σd :=
  let s1 : Store σo σd :=
    { s with origin := r.origin.Close s.origin, calls := s.calls ++ [⟨.origin, .Close⟩] }
  { s1 with destination := r.destination.Close s1.destination,
            calls := s1.calls ++ [⟨.destination, .Close⟩] }

/-! ## The constructor and its once guard -/

/-- Modelled from the spec: the type `resync.Once` (package `resync`, not under src/), the guard
under which an initialization "must happen at most once" (the "single-flight guarantee"); it is
Go's `sync.Once` with a `Reset`. `done` tells whether a `Do` has run since the guard was made or
last reset. -/
structure Once where
  done : Bool
deriving DecidableEq, Repr

/-- Modelled from the spec: method `Do` of `resync.Once`, not under src/: `Do(f)` calls `f` unless
a `Do` has run since the last reset, and the guard is done afterwards. The state `f` works on has
type `γ`. -/
def Once.Do {γ : Type} (o : Once) (f : γ → γ) (g : γ) : Once × γ :=
  if o.done then (o, g) else ({ done := true }, f g)

/-- Modelled from the spec: method `Reset` of `resync.Once`, not under src/: the next `Do` runs
its function again. -/
def Once.Reset (_ : Once) : Once := { done := false }

/-- The package-level variables of redis_migrator.go 12-16, and `heap`, the `RedisMigrator`
values allocated so far: a `*RedisMigrator` is `none` when nil and otherwise the position of the
value in `heap`. -/
structure Globals (σo σd : Type) where
  onceNewRedisMigrator : Once
  onceNewRedisMigratorRes : Option Nat
  onceNewRedisMigratorErr : error
  heap : List (RedisMigrator σo σd)

/-- The variables as the declarations of redis_migrator.go 12-16 leave them when the program
starts: the guard not done, the pointer and the error nil. -/
def Globals.initial (σo σd : Type) : Globals σo σd :=
  { onceNewRedisMigrator := { done := false }, onceNewRedisMigratorRes := none,
    onceNewRedisMigratorErr := none, heap := [] }

/-- Source `NewRedisMigrator` (redis_migrator.go 28-38): the returned pointer and error, and the
variables afterwards. The function literal given to `Do` allocates a `RedisMigrator` and stores
its address in `onceNewRedisMigratorRes`. -/
def NewRedisMigrator (origin : RedisItf σo) (destination : RedisItf σd) (g : Globals σo σd) :
    (Option Nat × error) × Globals σo σd :=
  let r := g.onceNewRedisMigrator.Do
    (fun g : Globals σo σd =>
      { g with
        heap := g.heap ++ [{ origin := origin, destination := destination }]
        onceNewRedisMigratorRes := some g.heap.length }) g
  let g : Globals σo σd := { r.2 with onceNewRedisMigrator := r.1 }
  ((g.onceNewRedisMigratorRes, g.onceNewRedisMigratorErr), g)

/-- The calls `NewRedisMigrator(origin, destination)` for the listed pairs of arguments, one after
the other: what each call returned, and the variables after the last. -/
def newRedisMigrators :
    List (RedisItf σo × RedisItf σd) → Globals σo σd →
      List (Option Nat × error) × Globals σo σd
  | [], g => ([], g)
  | (origin, destination) :: rest, g =>
    let r := NewRedisMigrator origin destination g
    let rs := newRedisMigrators rest r.2
    (r.1 :: rs.1, rs.2)

/-! ## What the claims say of a read command -/

/-- The behaviour of a read command of the migrator, for the call `cmd` made as `dst` on the
destination and as `org` on the origin, from the state `s`, with outcome `out`. When the
destination answers without error and with a result that counts as found, `out` carries that
result and no error, only the destination was called and the origin is as before. Otherwise the
destination was called first and the origin second, once each; the returned value is the
origin's when the origin's call succeeds, and `out` carries an error exactly when the origin's
call fails. -/
def ReadsThrough {α : Type} (found : α → Prop) (cmd : Command) (dst : σd → Reply α × σd)
    (org : σo → Reply α × σo) (s : Store σo σd) (out : Reply α × Store σo σd) : Prop :=
  (((dst s.destination).1.err = none ∧ found (dst s.destination).1.res) →
    out.1 = ⟨(dst s.destination).1.res, none⟩ ∧
    out.2 = { origin := s.origin, destination := (dst s.destination).2,
              calls := s.calls ++ [⟨.destination, cmd⟩] }) ∧
  (¬ ((dst s.destination).1.err = none ∧ found (dst s.destination).1.res) →
    out.2 = { origin := (org s.origin).2, destination := (dst s.destination).2,
              calls := s.calls ++ [⟨.destination, cmd⟩, ⟨.origin, cmd⟩] } ∧
    ((org s.origin).1.err = none → out.1 = ⟨(org s.origin).1.res, none⟩) ∧
    (out.1.err ≠ none ↔ (org s.origin).1.err ≠ none))

/-! ## Concrete clients used to evaluate the definitions -/

/-- A client that keeps string keys with their values in a list; hashes are not kept, a key
lives for 60 seconds, and no call fails. -/
def listClient : RedisItf (List (String × String)) :=
  { Get := fun _ key st =>
      (⟨(st.lookup key).map (fun v => v.toList.map (fun ch => ch.toNat.toUInt8)), none⟩, st)
    SetEX := fun _ key _ value st => (none, (key, value) :: st.filter (fun p => p.1 != key))
    Exists := fun _ key st => (⟨(st.lookup key).isSome, none⟩, st)
    Expire := fun _ key _ st => (⟨(st.lookup key).isSome, none⟩, st)
    TTL := fun _ key st => (⟨if (st.lookup key).isSome then 60 else -2, none⟩, st)
    HGet := fun _ _ _ st => (⟨none, none⟩, st)
    HExists := fun _ _ _ st => (⟨false, none⟩, st)
    HSet := fun _ _ _ _ st => (⟨false, none⟩, st)
    Del := fun _ key st =>
      (⟨((st.filter (fun p => key.contains (.str p.1))).length : Int), none⟩,
        st.filter (fun p => !key.contains (.str p.1)))
    Close := fun st => st }

/-- A client every call of which fails with `connection refused`; its state counts the calls.
Its `HSet` reports `true` together with the error. -/
def downClient : RedisItf Nat :=
  { Get := fun _ _ n => (⟨none, some (.client "connection refused")⟩, n + 1)
    SetEX := fun _ _ _ _ n => (some (.client "connection refused"), n + 1)
    Exists := fun _ _ n => (⟨false, some (.client "connection refused")⟩, n + 1)
    Expire := fun _ _ _ n => (⟨false, some (.client "connection refused")⟩, n + 1)
    TTL := fun _ _ n => (⟨0, some (.client "connection refused")⟩, n + 1)
    HGet := fun _ _ _ n => (⟨none, some (.client "connection refused")⟩, n + 1)
    HExists := fun _ _ _ n => (⟨false, some (.client "connection refused")⟩, n + 1)
    HSet := fun _ _ _ _ n => (⟨true, some (.client "connection refused")⟩, n + 1)
    Del := fun _ _ n => (⟨0, some (.client "connection refused")⟩, n + 1)
    Close := fun n => n }

/-- A migration from one list client to another. -/
def sampleMigrator : RedisMigrator (List (String × String)) (List (String × String)) :=
  { origin := listClient, destination := listClient }

/-- The key `a` is held by the origin and not yet by the destination; no call has been made. -/
def sampleStore : Store (List (String × String)) (List (String × String)) :=
  { origin := [("a", "1")], destination := [], calls := [] }

end Cache

namespace Cronx

open StatusCode

/-! ## Basic facts about the state -/

@[simp] theorem World.setJob_jobs_self (w : World) (p : Nat) (x : Job) :
    (w.setJob p x).jobs p = x := by
  simp [World.setJob]

@[simp] theorem World.setJob_now (w : World) (p : Nat) (x : Job) :
    (w.setJob p x).now = w.now := rfl

@[simp] theorem World.setJob_ext (w : World) (p : Nat) (x : Job) :
    (w.setJob p x).ext = w.ext := rfl

theorem World.setJob_jobs_other (w : World) (p q : Nat) (x : Job) (h : q ≠ p) :
    (w.setJob p x).jobs q = w.jobs q := by
  simp [World.setJob, h]

theorem lockRunning_eq_some {j : Nat} {w wl : World} (h : lockRunning j w = some wl) :
    (w.jobs j).running = false ∧ wl = w.setJob j { w.jobs j with running := true } := by
  unfold lockRunning at h
  split at h
  · exact absurd h (by simp)
  · rename_i hr
    exact ⟨by simpa using hr, by simpa using h.symm⟩

theorem lockRunning_of_free {j : Nat} {w : World} (h : (w.jobs j).running = false) :
    lockRunning j w = some (w.setJob j { w.jobs j with running := true }) := by
  simp [lockRunning, h]

theorem statusCode_running (k : StatusConsts) (x : Job) (h : x.status = k.statusRunning) :
    x.statusCode k = StatusCodeRunning := by
  simp [Job.statusCode, h]

theorem statusCode_idle (k : StatusConsts) (hk : k.casesDistinct = true) (x : Job)
    (h : x.status = k.statusIdle) : x.statusCode k = StatusCodeIdle := by
  simp only [StatusConsts.casesDistinct, Bool.and_eq_true, bne_iff_ne, ne_eq] at hk
  obtain ⟨⟨⟨⟨⟨h1, _⟩, _⟩, _⟩, _⟩, _⟩ := hk
  have h1' : ¬ k.statusIdle = k.statusRunning := fun e => h1 e.symm
  simp [Job.statusCode, h, h1']

theorem statusCode_error (k : StatusConsts) (hk : k.casesDistinct = true) (x : Job)
    (h : x.status = k.statusError) : x.statusCode k = StatusCodeError := by
  simp only [StatusConsts.casesDistinct, Bool.and_eq_true, bne_iff_ne, ne_eq] at hk
  obtain ⟨⟨⟨⟨⟨_, _⟩, h3⟩, _⟩, h5⟩, h6⟩ := hk
  have h3' : ¬ k.statusError = k.statusRunning := fun e => h3 e.symm
  have h5' : ¬ k.statusError = k.statusIdle := fun e => h5 e.symm
  have h6' : ¬ k.statusError = k.statusDown := fun e => h6 e.symm
  simp [Job.statusCode, h, h3', h5', h6']

/-- The state handed to the interceptor: the job is marked running and its lock is untouched. -/
theorem Run_enter_job (k : StatusConsts) (j : Nat) (w : World) :
    (Job.Run.enter k j w).jobs j =
      { w.jobs j with status := k.statusRunning, Status := StatusCodeRunning } := by
  simp [Job.Run.enter, Job.UpdateStatus, storeStatus, statusCode_running]

/-- What `Run` leaves in the job after the interceptor returned `err` in state `w`. -/
theorem Run_finish_job (k : StatusConsts) (hk : k.casesDistinct = true) (env : Env) (j : Nat)
    (start : Nat) (err : error) (w : World) :
    (Job.Run.finish k env j start err w).jobs j =
      match err with
      | some e =>
        { w.jobs j with Error := e.Error, status := k.statusError, Status := StatusCodeError,
                        Latency := env.durationString (since start w) }
      | none =>
        { w.jobs j with status := k.statusIdle, Status := StatusCodeIdle,
                        Latency := env.durationString (since start w) } := by
  cases err with
  | none =>
    simp [Job.Run.finish, Job.UpdateStatus, storeStatus, statusCode_idle k hk, since]
  | some e =>
    simp [Job.Run.finish, Job.UpdateStatus, storeStatus, statusCode_error k hk, since]

@[simp] theorem Run_enter_now (k : StatusConsts) (j : Nat) (w : World) :
    (Job.Run.enter k j w).now = w.now := rfl

@[simp] theorem Run_enter_ext (k : StatusConsts) (j : Nat) (w : World) :
    (Job.Run.enter k j w).ext = w.ext := rfl

/-- The lock bit is not changed by what `Run` does after the interceptor returned. -/
theorem Run_finish_running (k : StatusConsts) (env : Env) (j : Nat) (start : Nat) (err : error)
    (w : World) : ((Job.Run.finish k env j start err w).jobs j).running = (w.jobs j).running := by
  cases err <;> simp [Job.Run.finish, Job.UpdateStatus, storeStatus]

/-- `Run` on a job whose lock is free, in terms of the locked section. -/
theorem Run_of_lock (k : StatusConsts) (env : Env) (j : Nat) (w wl : World)
    (h : lockRunning j w = some wl) :
    Job.Run k env j w = Job.Run.deferred j (Job.Run.locked k env j w.now Background wl) := by
  simp [Job.Run, h]

/-- A normal return of the interceptor makes `Run` return, provided the lock is still held. -/
theorem Run_of_chain_ret (k : StatusConsts) (env : Env) (j : Nat) (w wl wc : World) (err : error)
    (hlock : lockRunning j w = some wl)
    (hchain : env.Interceptor Background (some j) (Job.Run.handler env) (Job.Run.enter k j wl)
      = .ret err wc)
    (hheld : (wc.jobs j).running = true) :
    ∃ w1, Job.Run k env j w = .ret () w1 ∧
      w1.jobs j = { (Job.Run.finish k env j w.now err wc).jobs j with running := false } := by
  have hf := Run_finish_running k env j w.now err wc
  rw [hheld] at hf
  refine ⟨(Job.Run.finish k env j w.now err wc).setJob j
    { (Job.Run.finish k env j w.now err wc).jobs j with running := false }, ?_, by simp⟩
  rw [Run_of_lock k env j w wl hlock]
  simp [Job.Run.locked, hchain, Job.Run.deferred, unlockRunning, hf]

/-- A call that returned normally, written out. -/
theorem Outcome.eq_ret_of_isRet (o : Outcome Unit) (h : o.isRet = true) :
    o = .ret () o.world := by
  cases o <;> simp_all [Outcome.isRet, Outcome.world]

/-- The probe of `Env.checkedRunning` never fires inside `Run`. -/
theorem Run_checkedRunning (k : StatusConsts) (env : Env) (j : Nat) (w : World) :
    Job.Run k (env.checkedRunning k) j w = Job.Run k env j w := by
  unfold Job.Run
  cases hl : lockRunning j w with
  | none => rfl
  | some wl =>
    have hs : ((Job.Run.enter k j wl).jobs j).Status = StatusCodeRunning := by
      rw [Run_enter_job]
    have hu : ((Job.Run.enter k j wl).jobs j).status = k.statusRunning := by
      rw [Run_enter_job]
    have hI : (env.checkedRunning k).Interceptor Background (some j)
        (Job.Run.handler (env.checkedRunning k)) (Job.Run.enter k j wl)
        = env.Interceptor Background (some j) (Job.Run.handler env) (Job.Run.enter k j wl) := by
      simp only [Env.checkedRunning, hs, hu, and_self, if_true]
      rfl
    simp only [Job.Run.locked, hI]
    rfl

/-! ## Claims about `Job.Run` -/

/-- C1: when the job's lock is free, the interceptor chain invoked by `Run` returns the non-nil
error `err` and leaves the lock held, then `Run` returns, and in the state it returns in the
job's `Status` is `StatusCodeError` and its `Error` field is `err.Error()`. -/
theorem Run_failure_recorded (k : StatusConsts) (env : Env) (j : Nat) (w wl wc : World)
    (err : GoError) (hk : k.casesDistinct = true)
    (hlock : lockRunning j w = some wl)
    (hchain : env.Interceptor Background (some j) (Job.Run.handler env) (Job.Run.enter k j wl)
      = .ret (some err) wc)
    (hheld : (wc.jobs j).running = true) :
    ∃ w1, Job.Run k env j w = .ret () w1 ∧
      (w1.jobs j).Status = StatusCodeError ∧ (w1.jobs j).Error = err.Error := by
  obtain ⟨w1, hrun, hjob⟩ := Run_of_chain_ret k env j w wl wc (some err) hlock hchain hheld
  refine ⟨w1, hrun, ?_, ?_⟩ <;> rw [hjob, Run_finish_job k hk]

/-- Witness of C1: the sample job whose body always fails with `boom`. -/
theorem Run_failure_recorded_witness :
    ∃ w1, Job.Run sampleConsts sampleEnv 0 (sampleWorld 0) = .ret () w1 ∧
      (w1.jobs 0).Status = StatusCodeError ∧ (w1.jobs 0).Error = "boom" :=
  Run_failure_recorded sampleConsts sampleEnv 0 (sampleWorld 0)
    ((sampleWorld 0).setJob 0 { sampleJob 0 with running := true })
    { (Job.Run.enter sampleConsts 0
        ((sampleWorld 0).setJob 0 { sampleJob 0 with running := true })) with now := 5 }
    { msg := "boom" } (by decide) (by simp [lockRunning, sampleWorld, sampleJob])
    (by simp [sampleEnv, Job.Run.handler, Run_enter_job, sampleWorld, sampleJob])
    (by simp [Run_enter_job, sampleWorld, sampleJob])

/-- If `Run` returns, the lock was free, the interceptor returned, and the job is left as `finish`
leaves it, unlocked. -/
theorem Run_ret_inv (k : StatusConsts) (env : Env) (j : Nat) (w w1 : World)
    (h : Job.Run k env j w = .ret () w1) :
    ∃ wl wc err, lockRunning j w = some wl ∧
      env.Interceptor Background (some j) (Job.Run.handler env) (Job.Run.enter k j wl)
        = .ret err wc ∧
      w1.jobs j = { (Job.Run.finish k env j w.now err wc).jobs j with running := false } := by
  unfold Job.Run at h
  cases hl : lockRunning j w with
  | none => simp [hl] at h
  | some wl =>
    simp only [hl, Job.Run.locked] at h
    cases hc : env.Interceptor Background (some j) (Job.Run.handler env) (Job.Run.enter k j wl) with
    | ret err wc =>
      refine ⟨wl, wc, err, rfl, hc, ?_⟩
      simp only [hc, Job.Run.deferred] at h
      cases hu : unlockRunning j (Job.Run.finish k env j w.now err wc) with
      | none => simp [hu] at h
      | some wu =>
        simp only [hu, Outcome.ret.injEq, true_and] at h
        subst h
        unfold unlockRunning at hu
        split at hu
        · simp only [Option.some.injEq] at hu
          subst hu
          simp
        · exact absurd hu (by simp)
    | panic v wc =>
      simp only [hc, Job.Run.deferred] at h
      cases hu : unlockRunning j wc <;> simp [hu] at h
    | blocked wc => simp [hc, Job.Run.deferred] at h
    | fatal m wc => simp [hc, Job.Run.deferred] at h

/-- C2 as amended: when the job's lock is free, the interceptor chain invoked by `Run` returns no
error and leaves the lock held, then `Run` returns with the job's `Status` `StatusCodeIdle`, and
its `Error` field is the one the chain left: `Run` does not clear it. -/
theorem Run_success_recorded (k : StatusConsts) (env : Env) (j : Nat) (w wl wc : World)
    (hk : k.casesDistinct = true)
    (hlock : lockRunning j w = some wl)
    (hchain : env.Interceptor Background (some j) (Job.Run.handler env) (Job.Run.enter k j wl)
      = .ret none wc)
    (hheld : (wc.jobs j).running = true) :
    ∃ w1, Job.Run k env j w = .ret () w1 ∧
      (w1.jobs j).Status = StatusCodeIdle ∧ (w1.jobs j).Error = (wc.jobs j).Error := by
  obtain ⟨w1, hrun, hjob⟩ := Run_of_chain_ret k env j w wl wc none hlock hchain hheld
  refine ⟨w1, hrun, ?_, ?_⟩ <;> rw [hjob, Run_finish_job k hk]

/-- Witness of C2 as amended: the sample job whose body always succeeds. -/
theorem Run_success_recorded_witness :
    ∃ w1, Job.Run sampleConsts sampleEnv 0 (sampleWorld 1) = .ret () w1 ∧
      (w1.jobs 0).Status = StatusCodeIdle ∧ (w1.jobs 0).Error = "" :=
  Run_success_recorded sampleConsts sampleEnv 0 (sampleWorld 1)
    ((sampleWorld 1).setJob 0 { sampleJob 1 with running := true })
    { (Job.Run.enter sampleConsts 0
        ((sampleWorld 1).setJob 0 { sampleJob 1 with running := true })) with now := 5 }
    (by decide) (by simp [lockRunning, sampleWorld, sampleJob])
    (by simp [sampleEnv, Job.Run.handler, Run_enter_job, sampleWorld, sampleJob])
    (by simp [Run_enter_job, sampleWorld, sampleJob])

/-- Counterexample to C2 as stated: the sample job whose body fails on its first call and
succeeds on the second. The first `Run` returns with `Status` Error and `Error` `boom`; the second
`Run`, in which the chain returns no error, returns with `Status` Idle and `Error` still `boom`,
not the empty string. -/
theorem Run_success_keeps_stale_error :
    (Job.Run sampleConsts sampleEnv 0 (sampleWorld 3)).isRet = true ∧
    ((Job.Run sampleConsts sampleEnv 0 (sampleWorld 3)).world.jobs 0).Status = StatusCodeError ∧
    ((Job.Run sampleConsts sampleEnv 0 (sampleWorld 3)).world.jobs 0).Error = "boom" ∧
    (sampleEnv.Interceptor Background (some 0) (Job.Run.handler sampleEnv)
      (Job.Run.enter sampleConsts 0
        ((Job.Run sampleConsts sampleEnv 0 (sampleWorld 3)).world.setJob 0
          { (Job.Run sampleConsts sampleEnv 0 (sampleWorld 3)).world.jobs 0 with
            running := true }))).isRet = true ∧
    (Job.Run sampleConsts sampleEnv 0
      (Job.Run sampleConsts sampleEnv 0 (sampleWorld 3)).world).isRet = true ∧
    ((Job.Run sampleConsts sampleEnv 0
      (Job.Run sampleConsts sampleEnv 0 (sampleWorld 3)).world).world.jobs 0).Status
        = StatusCodeIdle ∧
    ((Job.Run sampleConsts sampleEnv 0
      (Job.Run sampleConsts sampleEnv 0 (sampleWorld 3)).world).world.jobs 0).Error = "boom" ∧
    ((Job.Run sampleConsts sampleEnv 0
      (Job.Run sampleConsts sampleEnv 0 (sampleWorld 3)).world).world.jobs 0).Error ≠ "" := by
  refine ⟨rfl, rfl, rfl, rfl, rfl, rfl, rfl, ?_⟩
  decide

/-- C4: when the job's lock is free and the interceptor chain invoked by `Run` (the job body
included) panics with the lock still held, the panic leaves `Run` with the lock released by the
deferred unlock; a `Run` of the same job started in that state takes the lock and executes the
locked section. -/
theorem Run_panic_releases_lock (k : StatusConsts) (env : Env) (j : Nat) (w wl wc : World)
    (v : String)
    (hlock : lockRunning j w = some wl)
    (hchain : env.Interceptor Background (some j) (Job.Run.handler env) (Job.Run.enter k j wl)
      = .panic v wc)
    (hheld : (wc.jobs j).running = true) :
    ∃ w1, Job.Run k env j w = .panic v w1 ∧ (w1.jobs j).running = false ∧
      ∃ wl1, lockRunning j w1 = some wl1 ∧ (wl1.jobs j).running = true ∧
        Job.Run k env j w1
          = Job.Run.deferred j (Job.Run.locked k env j w1.now Background wl1) := by
  refine ⟨wc.setJob j { wc.jobs j with running := false }, ?_, by simp, ?_⟩
  · rw [Run_of_lock k env j w wl hlock]
    simp [Job.Run.locked, hchain, Job.Run.deferred, unlockRunning, hheld]
  · have hfree : ((wc.setJob j { wc.jobs j with running := false }).jobs j).running = false := by
      simp
    exact ⟨_, lockRunning_of_free hfree, by simp, Run_of_lock k env j _ _ (lockRunning_of_free hfree)⟩

/-- Witness of C4: the sample job whose body panics, under the sample interceptor, which does not
recover. -/
theorem Run_panic_releases_lock_witness :
    ∃ w1, Job.Run sampleConsts sampleEnv 0 (sampleWorld 2) = .panic "bang" w1 ∧
      (w1.jobs 0).running = false ∧
      ∃ wl1, lockRunning 0 w1 = some wl1 ∧ (wl1.jobs 0).running = true ∧
        Job.Run sampleConsts sampleEnv 0 w1
          = Job.Run.deferred 0 (Job.Run.locked sampleConsts sampleEnv 0 w1.now Background wl1) :=
  Run_panic_releases_lock sampleConsts sampleEnv 0 (sampleWorld 2)
    ((sampleWorld 2).setJob 0 { sampleJob 2 with running := true })
    { (Job.Run.enter sampleConsts 0
        ((sampleWorld 2).setJob 0 { sampleJob 2 with running := true })) with now := 5 }
    "bang" (by simp [lockRunning, sampleWorld, sampleJob])
    (by simp [sampleEnv, Job.Run.handler, Run_enter_job, sampleWorld, sampleJob])
    (by simp [Run_enter_job, sampleWorld, sampleJob])

/-! ## Claims about `NewJob` and `Schedule` -/

/-- C3 as amended: for a non-nil job value whose dynamic type has a name or an element type (a
defined type, or a pointer), `NewJob` returns a `Job` holding the value, with `Status`
`StatusCodeUp`, whose `Name` is the type's name, or for an unnamed pointer type the name of the
pointed-to type, or, when that too is empty, the printed form of the type; the derived name
`Func` is replaced by `(nameless)`. -/
theorem NewJob_name (k : StatusConsts) (v : JobItfValue)
    (h : v.typ.Name ≠ "" ∨ v.typ.Elem ≠ none) :
    ∃ jb, NewJob k (some v) = .ok jb ∧ jb.inner = some v ∧ jb.Status = StatusCodeUp ∧
      (v.typ.Name ≠ "" → v.typ.Name ≠ "Func" → jb.Name = v.typ.Name) ∧
      (v.typ.Name = "Func" → jb.Name = "(nameless)") ∧
      (∀ e, v.typ.Name = "" → v.typ.Elem = some e →
        (e.Name ≠ "" → e.Name ≠ "Func" → jb.Name = e.Name) ∧
        (e.Name = "Func" → jb.Name = "(nameless)") ∧
        (e.Name = "" → v.typ.String ≠ "Func" → jb.Name = v.typ.String)) := by
  by_cases hn : v.typ.Name = ""
  · have he : v.typ.Elem ≠ none := by
      rcases h with h | h
      · exact absurd hn h
      · exact h
    obtain ⟨e, he⟩ := Option.ne_none_iff_exists'.mp he
    refine ⟨_, by simp only [NewJob, hn, he, if_true, Option.map_some']; rfl, rfl, rfl, ?_, ?_, ?_⟩
    · intro h1; exact absurd hn h1
    · intro h1; rw [hn] at h1; exact absurd h1 (by decide)
    · intro e1 _ he1
      rw [he] at he1
      cases he1
      refine ⟨?_, ?_, ?_⟩
      · intro h1 h2; simp [h1, h2]
      · intro h1; simp [h1]
      · intro h1 h2; simp [h1, h2]
  · refine ⟨_, by simp only [NewJob, hn, if_false]; rfl, rfl, rfl, ?_, ?_, ?_⟩
    · intro _ h2; simp [hn, h2]
    · intro h1; simp [h1]
    · intro e h1; exact absurd h1 hn

/-- Witness of C3 as amended: a pointer to `main.SendEmail` is named `SendEmail`. -/
theorem NewJob_name_witness :
    ∃ jb, NewJob sampleConsts (some ⟨.pointer typSendEmail, 0⟩) = .ok jb ∧
      jb.Name = "SendEmail" := by
  obtain ⟨jb, h1, _, _, _, _, h5⟩ :=
    NewJob_name sampleConsts ⟨.pointer typSendEmail, 0⟩ (Or.inr (by decide))
  exact ⟨jb, h1, (h5 typSendEmail (by decide) (by decide)).1 (by decide) (by decide)⟩

/-- Counterexample to C3 as stated. A pointer to an unnamed struct type has no type name, and
neither has the type it points to, yet the job's `Name` is the printed form of the type and not
`(nameless)`; and a value of a user's struct type named `Func` has a type name, yet the job's
`Name` is `(nameless)`. -/
theorem NewJob_name_not_as_stated :
    typPtrUnnamed.Name = "" ∧ typPtrUnnamed.Elem.map GoType.Name = some "" ∧
    (NewJob sampleConsts (some ⟨typPtrUnnamed, 0⟩)).toOption.map Job.Name
      = some "*struct \x7b cronx.JobItf \x7d" ∧
    typUserFunc.Name = "Func" ∧
    (NewJob sampleConsts (some ⟨typUserFunc, 0⟩)).toOption.map Job.Name = some "(nameless)" := by
  decide

/-- The case `NewJob` misses: for a value of an unnamed struct type (not behind a pointer) the
call `reflect.TypeOf(job).Elem()` panics, and for a nil `job` the call of `Name` does. -/
theorem NewJob_faults (k : StatusConsts) (i : Nat) :
    NewJob k (some ⟨typUnnamed, i⟩)
      = .error "reflect: Elem of invalid type struct \x7b cronx.JobItf \x7d" ∧
    NewJob k none = .error nilDeref := by
  constructor <;> rfl

/-- C9 as amended: `Schedule` on a controller whose trigger engine handle is nil, or with a spec
the grammar rejects, returns a non-nil error and the controller unchanged, so `GetEntries` is
unchanged, whatever the job; with a spec the grammar accepts, on an initialised controller, and a
job value that `NewJob` wraps, it returns the nil error, and `GetEntries` has one entry more. -/
theorem Schedule_result (validSpec : String → Bool) (k : StatusConsts) (c : Controller)
    (spec : String) (job : JobItf) :
    (c.trigger = none →
      ∃ e c1, Schedule validSpec k c spec job = .ok (some e, c1) ∧ c1 = c ∧
        GetEntries c1 = GetEntries c) ∧
    (validSpec spec = false →
      ∃ e c1, Schedule validSpec k c spec job = .ok (some e, c1) ∧ c1 = c ∧
        GetEntries c1 = GetEntries c) ∧
    (∀ t j, c.trigger = some t → validSpec spec = true → NewJob k job = .ok j →
      ∃ c1, Schedule validSpec k c spec job = .ok (none, c1) ∧
        (GetEntries c1).map List.length = (GetEntries c).map (fun l => l.length + 1)) := by
  refine ⟨?_, ?_, ?_⟩
  · intro h
    exact ⟨{ msg := "cronx has not been initialized" }, c, by simp [Schedule, h], rfl, rfl⟩
  · intro h
    cases ht : c.trigger with
    | none =>
      exact ⟨{ msg := "cronx has not been initialized" }, c, by simp [Schedule, ht], rfl, rfl⟩
    | some t =>
      exact ⟨{ msg := "invalid schedule: " ++ spec }, c, by simp [Schedule, ht, h], rfl, rfl⟩
  · intro t j ht hv hj
    refine ⟨_, by simp only [Schedule, ht, hv, hj, if_true]; rfl, ?_⟩
    simp [GetEntries, ht]

/-- Witness of C9 as amended: the three cases of `TestSchedule`, with a grammar that accepts
`@every 5m`. -/
theorem Schedule_result_witness :
    (∃ e c1, Schedule sampleValidSpec sampleConsts { sampleController with trigger := none }
        "@every 5m" (some ⟨typFunc, 0⟩) = .ok (some e, c1) ∧
      c1 = { sampleController with trigger := none } ∧
      GetEntries c1 = GetEntries { sampleController with trigger := none }) ∧
    (∃ e c1, Schedule sampleValidSpec sampleConsts sampleController
        "this is clearly not a spec" (some ⟨typFunc, 0⟩) = .ok (some e, c1) ∧
      c1 = sampleController ∧ GetEntries c1 = GetEntries sampleController) ∧
    (∃ c1, Schedule sampleValidSpec sampleConsts sampleController
        "@every 5m" (some ⟨typFunc, 0⟩) = .ok (none, c1) ∧
      (GetEntries c1).map List.length
        = (GetEntries sampleController).map (fun l => l.length + 1)) :=
  ⟨(Schedule_result sampleValidSpec sampleConsts { sampleController with trigger := none }
      "@every 5m" (some ⟨typFunc, 0⟩)).1 rfl,
   (Schedule_result sampleValidSpec sampleConsts sampleController
      "this is clearly not a spec" (some ⟨typFunc, 0⟩)).2.1 (by decide),
   (Schedule_result sampleValidSpec sampleConsts sampleController
      "@every 5m" (some ⟨typFunc, 0⟩)).2.2 _ _ rfl (by decide) rfl⟩

/-- Counterexample to C9 as stated: on an initialised controller and with a spec the grammar
accepts, `Schedule` of a nil job does not return the nil error: `NewJob`, which has no guard for a
nil job, panics, and the panic leaves `Schedule`; nothing is registered. -/
theorem Schedule_nil_job_panics :
    sampleController.trigger ≠ none ∧ sampleValidSpec "@every 5m" = true ∧
    Schedule sampleValidSpec sampleConsts sampleController "@every 5m" none = .error nilDeref ∧
    (∀ c1, Schedule sampleValidSpec sampleConsts sampleController "@every 5m" none
      ≠ .ok (none, c1)) := by
  refine ⟨by decide, by decide, rfl, ?_⟩
  intro c1 h
  have h2 : Schedule sampleValidSpec sampleConsts sampleController "@every 5m" none
      = .error nilDeref := rfl
  rw [h2] at h
  exact absurd h (by simp)

/-! ## Goroutines: the lock discipline -/

@[simp] theorem Config.move_threads_self (c : Config) (t : Nat) (pc : Pc) (w : World) :
    (c.move t pc w).threads t = { c.threads t with pc := pc } := by
  simp [Config.move]

theorem Config.move_threads_other (c : Config) (t u : Nat) (pc : Pc) (w : World) (h : u ≠ t) :
    (c.move t pc w).threads u = c.threads u := by
  simp [Config.move, h]

@[simp] theorem Config.move_world (c : Config) (t : Nat) (pc : Pc) (w : World) :
    (c.move t pc w).world = w := rfl

@[simp] theorem Config.move_alive (c : Config) (t : Nat) (pc : Pc) (w : World) :
    (c.move t pc w).alive = c.alive := rfl

theorem Run_enter_running_all (k : StatusConsts) (j q : Nat) (w : World) :
    ((Job.Run.enter k j w).jobs q).running = (w.jobs q).running := by
  by_cases h : q = j
  · subst h; rw [Run_enter_job]
  · simp [Job.Run.enter, Job.UpdateStatus, storeStatus, World.setJob, h]

theorem Run_finish_running_all (k : StatusConsts) (env : Env) (j q : Nat) (start : Nat)
    (err : error) (w : World) :
    ((Job.Run.finish k env j start err w).jobs q).running = (w.jobs q).running := by
  by_cases h : q = j
  · subst h; exact Run_finish_running k env q start err w
  · cases err <;> simp [Job.Run.finish, Job.UpdateStatus, storeStatus, World.setJob, h]

/-- A move that neither takes nor releases the lock keeps the discipline. -/
theorem LockInv_move_same (th : Nat → Thread) (w w1 : World) (t : Nat) (pc : Pc)
    (h : LockInv th w) (hc : pc.critical = (th t).pc.critical)
    (hw : ∀ q, (w1.jobs q).running = (w.jobs q).running) :
    LockInv (fun u => if u = t then { th t with pc := pc } else th u) w1 := by
  obtain ⟨h1, h2, h3⟩ := h
  have key : ∀ u, ((if u = t then { th t with pc := pc } else th u : Thread).job = (th u).job) ∧
      ((if u = t then { th t with pc := pc } else th u : Thread).pc.critical
        = (th u).pc.critical) := by
    intro u
    by_cases hu : u = t
    · subst hu; simp [hc]
    · simp [hu]
  refine ⟨?_, ?_, ?_⟩
  · intro u hu
    rw [(key u).2] at hu
    rw [(key u).1, hw]
    exact h1 u hu
  · intro t1 t2 ht1 ht2 hj
    rw [(key t1).2] at ht1
    rw [(key t2).2] at ht2
    rw [(key t1).1, (key t2).1] at hj
    exact h2 t1 t2 ht1 ht2 hj
  · intro j hj
    rw [hw] at hj
    obtain ⟨u, hu1, hu2⟩ := h3 j hj
    exact ⟨u, by rw [(key u).1]; exact hu1, by rw [(key u).2]; exact hu2⟩

/-- Taking a free lock keeps the discipline. -/
theorem LockInv_move_acquire (th : Nat → Thread) (w : World) (t : Nat) (pc : Pc)
    (h : LockInv th w) (hold : (th t).pc.critical = false) (hnew : pc.critical = true)
    (hfree : (w.jobs (th t).job).running = false) :
    LockInv (fun u => if u = t then { th t with pc := pc } else th u)
      (w.setJob (th t).job { w.jobs (th t).job with running := true }) := by
  obtain ⟨h1, h2, h3⟩ := h
  refine ⟨?_, ?_, ?_⟩
  · intro u hu
    by_cases hut : u = t
    · subst hut; simp
    · simp only [hut, if_false] at hu ⊢
      have hr := h1 u hu
      have hne : (th u).job ≠ (th t).job := by
        intro e
        rw [e, hfree] at hr
        exact absurd hr (by simp)
      rw [World.setJob_jobs_other _ _ _ _ hne]
      exact hr
  · intro t1 t2 ht1 ht2 hj
    by_cases e1 : t1 = t <;> by_cases e2 : t2 = t
    · rw [e1, e2]
    · exfalso
      simp only [e1, e2, if_true, if_false] at ht2 hj
      have hr := h1 t2 ht2
      rw [← hj, hfree] at hr
      exact absurd hr (by simp)
    · exfalso
      simp only [e1, e2, if_true, if_false] at ht1 hj
      have hr := h1 t1 ht1
      rw [hj, hfree] at hr
      exact absurd hr (by simp)
    · simp only [e1, e2, if_false] at ht1 ht2 hj
      exact h2 t1 t2 ht1 ht2 hj
  · intro j hj
    by_cases e : j = (th t).job
    · exact ⟨t, by simp [e], by simp [hnew]⟩
    · rw [World.setJob_jobs_other _ _ _ _ e] at hj
      obtain ⟨u, hu1, hu2⟩ := h3 j hj
      have hut : u ≠ t := by
        intro e1
        rw [e1, hold] at hu2
        exact absurd hu2 (by simp)
      exact ⟨u, by simp [hut, hu1], by simp [hut, hu2]⟩

/-- Releasing the lock keeps the discipline. -/
theorem LockInv_move_release (th : Nat → Thread) (w : World) (t : Nat) (pc : Pc)
    (h : LockInv th w) (hold : (th t).pc.critical = true) (hnew : pc.critical = false) :
    LockInv (fun u => if u = t then { th t with pc := pc } else th u)
      (w.setJob (th t).job { w.jobs (th t).job with running := false }) := by
  obtain ⟨h1, h2, h3⟩ := h
  refine ⟨?_, ?_, ?_⟩
  · intro u hu
    by_cases hut : u = t
    · subst hut
      simp [hnew] at hu
    · simp only [hut, if_false] at hu ⊢
      have hne : (th u).job ≠ (th t).job := fun e => hut (h2 u t hu hold e)
      rw [World.setJob_jobs_other _ _ _ _ hne]
      exact h1 u hu
  · intro t1 t2 ht1 ht2 hj
    by_cases e1 : t1 = t
    · subst e1; simp [hnew] at ht1
    · by_cases e2 : t2 = t
      · subst e2; simp [hnew] at ht2
      · simp only [e1, e2, if_false] at ht1 ht2 hj
        exact h2 t1 t2 ht1 ht2 hj
  · intro j hj
    have e : j ≠ (th t).job := by
      intro e
      subst e
      simp at hj
    rw [World.setJob_jobs_other _ _ _ _ e] at hj
    obtain ⟨u, hu1, hu2⟩ := h3 j hj
    have hut : u ≠ t := by
      intro e1
      subst e1
      exact e hu1.symm
    exact ⟨u, by simp [hut, hu1], by simp [hut, hu2]⟩

theorem unlockRunning_eq_some {j : Nat} {w w1 : World} (h : unlockRunning j w = some w1) :
    (w.jobs j).running = true ∧ w1 = w.setJob j { w.jobs j with running := false } := by
  unfold unlockRunning at h
  split at h
  · rename_i hr
    exact ⟨hr, by simpa using h.symm⟩
  · exact absurd h (by simp)

/-- Every action of a goroutine keeps the lock discipline, when the interceptor chain leaves the
locks alone. -/
theorem LockInv_step (k : StatusConsts) (env : Env) (t : Nat) (c c1 : Config)
    (henv : env.KeepsLocks) (h : LockInv c.threads c.world)
    (hs : stepThread k env t c = some c1) : LockInv c1.threads c1.world := by
  unfold stepThread at hs
  split at hs
  case isFalse => exact absurd hs (by simp)
  case isTrue =>
    cases hpc : (c.threads t).pc with
    | begin =>
      simp only [hpc, Option.some.injEq] at hs
      subst hs
      exact LockInv_move_same c.threads c.world c.world t _ h (by simp [hpc, Pc.critical])
        (fun _ => rfl)
    | atLock start =>
      simp only [hpc] at hs
      cases hl : lockRunning (c.threads t).job c.world with
      | none => simp [hl] at hs
      | some wl =>
        simp only [hl, Option.some.injEq] at hs
        subst hs
        obtain ⟨hfree, hwl⟩ := lockRunning_eq_some hl
        subst hwl
        exact LockInv_move_acquire c.threads c.world t _ h (by simp [hpc, Pc.critical])
          (by simp [Pc.critical]) hfree
    | holding start =>
      simp only [hpc, Option.some.injEq] at hs
      subst hs
      exact LockInv_move_same c.threads c.world _ t _ h (by simp [hpc, Pc.critical])
        (fun q => Run_enter_running_all k _ q c.world)
    | inChain start =>
      simp only [hpc] at hs
      have hk := henv (c.threads t).job c.world
      cases ho : env.Interceptor Background (some (c.threads t).job) (Job.Run.handler env)
          c.world with
      | ret err w1 =>
        simp only [ho, Option.some.injEq] at hs
        subst hs
        simp only [ho, Outcome.world] at hk
        exact LockInv_move_same c.threads c.world _ t _ h (by simp [hpc, Pc.critical]) hk
      | panic v w1 =>
        simp only [ho, Option.some.injEq] at hs
        subst hs
        simp only [ho, Outcome.world] at hk
        exact LockInv_move_same c.threads c.world _ t _ h (by simp [hpc, Pc.critical]) hk
      | blocked w1 =>
        simp only [ho, Option.some.injEq] at hs
        subst hs
        simp only [ho, Outcome.world] at hk
        exact LockInv_move_same c.threads c.world _ t _ h (by simp [hpc, Pc.critical]) hk
      | fatal m w1 =>
        simp only [ho, Option.some.injEq] at hs
        subst hs
        simp only [ho, Outcome.world] at hk
        exact LockInv_move_same c.threads c.world _ t _ h (by simp [hpc, Pc.critical]) hk
    | chainDone start err =>
      simp only [hpc, Option.some.injEq] at hs
      subst hs
      exact LockInv_move_same c.threads c.world _ t _ h (by simp [hpc, Pc.critical])
        (fun q => Run_finish_running_all k env _ q start err c.world)
    | leaving e =>
      simp only [hpc] at hs
      cases hu : unlockRunning (c.threads t).job c.world with
      | none =>
        simp only [hu, Option.some.injEq] at hs
        subst hs
        exact LockInv_move_same c.threads c.world _ t _ h (by simp [hpc, Pc.critical])
          (fun _ => rfl)
      | some w1 =>
        simp only [hu, Option.some.injEq] at hs
        subst hs
        obtain ⟨_, hw1⟩ := unlockRunning_eq_some hu
        subst hw1
        exact LockInv_move_release c.threads c.world t _ h (by simp [hpc, Pc.critical])
          (by simp [Pc.critical])
    | done e => simp [hpc] at hs
    | stuck => simp [hpc] at hs
    | aborted m => simp [hpc] at hs

/-- Every reachable configuration obeys the lock discipline. -/
theorem LockInv_reachable (k : StatusConsts) (env : Env) (c : Config) (henv : env.KeepsLocks)
    (hr : Reachable k env c) : LockInv c.threads c.world := by
  induction hr with
  | init c h =>
    obtain ⟨_, hpc, hfree⟩ := h
    refine ⟨?_, ?_, ?_⟩
    · intro t ht; simp [hpc t, Pc.critical] at ht
    · intro t1 _ ht; simp [hpc t1, Pc.critical] at ht
    · intro j hj; rw [hfree j] at hj; exact absurd hj (by simp)
  | step c c1 t _ hs ih => exact LockInv_step k env t c c1 henv ih hs
  | tick c d _ ih => exact ih

/-- An action of goroutine `u` moves `u` and nobody else. -/
theorem stepThread_eq_move (k : StatusConsts) (env : Env) (u : Nat) (c c1 : Config)
    (hs : stepThread k env u c = some c1) :
    ∃ pc w a, c1 = { c.move u pc w with alive := a } := by
  unfold stepThread at hs
  split at hs
  case isFalse => exact absurd hs (by simp)
  case isTrue ha =>
    cases hpc : (c.threads u).pc with
    | begin =>
      simp only [hpc, Option.some.injEq] at hs
      exact ⟨_, _, c.alive, hs.symm⟩
    | atLock start =>
      simp only [hpc] at hs
      cases hl : lockRunning (c.threads u).job c.world with
      | none => simp [hl] at hs
      | some wl =>
        simp only [hl, Option.some.injEq] at hs
        exact ⟨_, _, c.alive, hs.symm⟩
    | holding start =>
      simp only [hpc, Option.some.injEq] at hs
      exact ⟨_, _, c.alive, hs.symm⟩
    | inChain start =>
      simp only [hpc] at hs
      cases ho : env.Interceptor Background (some (c.threads u).job) (Job.Run.handler env)
          c.world with
      | ret err w1 =>
        simp only [ho, Option.some.injEq] at hs
        exact ⟨_, _, c.alive, hs.symm⟩
      | panic v w1 =>
        simp only [ho, Option.some.injEq] at hs
        exact ⟨_, _, c.alive, hs.symm⟩
      | blocked w1 =>
        simp only [ho, Option.some.injEq] at hs
        exact ⟨_, _, c.alive, hs.symm⟩
      | fatal m w1 =>
        simp only [ho, Option.some.injEq] at hs
        exact ⟨_, _, false, hs.symm⟩
    | chainDone start err =>
      simp only [hpc, Option.some.injEq] at hs
      exact ⟨_, _, c.alive, hs.symm⟩
    | leaving e =>
      simp only [hpc] at hs
      cases hu : unlockRunning (c.threads u).job c.world with
      | none =>
        simp only [hu, Option.some.injEq] at hs
        exact ⟨_, _, false, hs.symm⟩
      | some w1 =>
        simp only [hu, Option.some.injEq] at hs
        exact ⟨_, _, c.alive, hs.symm⟩
    | done e => simp [hpc] at hs
    | stuck => simp [hpc] at hs
    | aborted m => simp [hpc] at hs

/-- A schedule leads from a reachable configuration to a reachable one. -/
theorem Reachable_runSchedule (k : StatusConsts) (env : Env) (sched : List Nat) :
    ∀ c, Reachable k env c → Reachable k env (runSchedule k env sched c) := by
  induction sched with
  | nil => intro c h; exact h
  | cons t sched ih =>
    intro c h
    unfold runSchedule
    cases hs : stepThread k env t c with
    | none => exact ih c h
    | some c1 => exact ih c1 (Reachable.step c c1 t h hs)

theorem sampleEnv_keepsLocks : sampleEnv.KeepsLocks := by
  intro j w q
  simp only [sampleEnv, Job.Run.handler]
  cases (w.jobs j).inner with
  | none => rfl
  | some v =>
    simp only []
    split_ifs <;> rfl

theorem sampleConfig_initial (impl : Nat) : (sampleConfig impl).Initial :=
  ⟨rfl, fun _ => rfl, fun _ => rfl⟩

/-! ## Claim about concurrent firings -/

/-- C5: in every configuration reached by goroutines that execute `Run`, interleaved in any
order, with an interceptor chain that leaves the locks alone: two different goroutines of one job
are never both between `Lock` and `Unlock`, so never both inside the interceptor chain; a
goroutine that calls `Lock` while another one of its job is there cannot move; when no goroutine
of its job is there it takes the lock; and the action of one goroutine leaves every other
goroutine where it was, so a waiting firing is not dropped. -/
theorem firings_serialized (k : StatusConsts) (env : Env) (c : Config) (henv : env.KeepsLocks)
    (hr : Reachable k env c) :
    (∀ t1 t2, t1 ≠ t2 → (c.threads t1).job = (c.threads t2).job →
      ¬ ((c.threads t1).pc.critical = true ∧ (c.threads t2).pc.critical = true)) ∧
    (∀ t1 t2 s1 s2, t1 ≠ t2 → (c.threads t1).job = (c.threads t2).job →
      ¬ ((c.threads t1).pc = .inChain s1 ∧ (c.threads t2).pc = .inChain s2)) ∧
    (∀ t u start, u ≠ t → (c.threads u).job = (c.threads t).job →
      (c.threads u).pc.critical = true → (c.threads t).pc = .atLock start →
      stepThread k env t c = none) ∧
    (∀ t start, c.alive = true → (c.threads t).pc = .atLock start →
      (∀ u, (c.threads u).job = (c.threads t).job → (c.threads u).pc.critical = false) →
      ∃ c1, stepThread k env t c = some c1 ∧ (c1.threads t).pc = .holding start) ∧
    (∀ t u c1, u ≠ t → stepThread k env u c = some c1 → c1.threads t = c.threads t) := by
  obtain ⟨h1, h2, h3⟩ := LockInv_reachable k env c henv hr
  refine ⟨?_, ?_, ?_, ?_, ?_⟩
  · intro t1 t2 hne hj ⟨hc1, hc2⟩
    exact hne (h2 t1 t2 hc1 hc2 hj)
  · intro t1 t2 s1 s2 hne hj ⟨hc1, hc2⟩
    exact hne (h2 t1 t2 (by simp [hc1, Pc.critical]) (by simp [hc2, Pc.critical]) hj)
  · intro t u start _ hj hu hpc
    have hheld := h1 u hu
    rw [hj] at hheld
    simp [stepThread, hpc, lockRunning, hheld]
  · intro t start ha hpc hnone
    have hfree : (c.world.jobs (c.threads t).job).running = false := by
      cases hr : (c.world.jobs (c.threads t).job).running with
      | false => rfl
      | true =>
        obtain ⟨u, hu1, hu2⟩ := h3 _ hr
        rw [hnone u hu1] at hu2
        exact absurd hu2 (by simp)
    exact ⟨_, by simp [stepThread, ha, hpc, lockRunning, hfree]; rfl, by simp⟩
  · intro t u c1 hne hs
    obtain ⟨pc, w, a, rfl⟩ := stepThread_eq_move k env u c c1 hs
    exact Config.move_threads_other c u t pc w (Ne.symm hne)

/-- Witness of C5: two firings of the sample job. The first has gone as far as into the
interceptor chain, the second as far as to the call of `Lock`; the second cannot move. -/
theorem firings_serialized_witness :
    ((runSchedule sampleConsts sampleEnv [0, 0, 0, 1, 1] (sampleConfig 1)).threads 0).pc
      = .inChain 0 ∧
    ((runSchedule sampleConsts sampleEnv [0, 0, 0, 1, 1] (sampleConfig 1)).threads 1).pc
      = .atLock 0 ∧
    stepThread sampleConsts sampleEnv 1
      (runSchedule sampleConsts sampleEnv [0, 0, 0, 1, 1] (sampleConfig 1)) = none :=
  ⟨rfl, rfl,
   (firings_serialized sampleConsts sampleEnv
      (runSchedule sampleConsts sampleEnv [0, 0, 0, 1, 1] (sampleConfig 1)) sampleEnv_keepsLocks
      (Reachable_runSchedule sampleConsts sampleEnv [0, 0, 0, 1, 1] (sampleConfig 1)
        (Reachable.init _ (sampleConfig_initial 1)))).2.2.1 1 0 0 (by decide) rfl rfl rfl⟩


/-- One goroutine running `Run` on its own, action by action, ends where `Job.Run` ends: after six
actions when `Run` returns, after five when a panic leaves it. -/
theorem stepsOf_eq_Run (k : StatusConsts) (env : Env) (t : Nat) (c : Config)
    (ha : c.alive = true) (hpc : (c.threads t).pc = .begin) :
    (∀ w1, Job.Run k env (c.threads t).job c.world = .ret () w1 →
      ∃ c1, stepsOf k env t 6 c = some c1 ∧ c1.world = w1 ∧
        (c1.threads t).pc = .done .returned) ∧
    (∀ v w1, Job.Run k env (c.threads t).job c.world = .panic v w1 →
      ∃ c1, stepsOf k env t 5 c = some c1 ∧ c1.world = w1 ∧
        (c1.threads t).pc = .done (.panicked v)) := by
  constructor
  · intro w1 h
    unfold Job.Run at h
    cases hl : lockRunning (c.threads t).job c.world with
    | none => simp [hl] at h
    | some wl =>
      simp only [hl, Job.Run.locked] at h
      cases hc : env.Interceptor Background (some (c.threads t).job) (Job.Run.handler env)
          (Job.Run.enter k (c.threads t).job wl) with
      | ret err wc =>
        simp only [hc, Job.Run.deferred] at h
        cases hu : unlockRunning (c.threads t).job
            (Job.Run.finish k env (c.threads t).job c.world.now err wc) with
        | none => simp [hu] at h
        | some wu =>
          simp only [hu, Outcome.ret.injEq, true_and] at h
          subst h
          simp [stepsOf, stepThread, ha, hpc, hl, hc, hu]
      | panic v wc =>
        simp only [hc, Job.Run.deferred] at h
        cases hu : unlockRunning (c.threads t).job wc <;> simp [hu] at h
      | blocked wc => simp [hc, Job.Run.deferred] at h
      | fatal m wc => simp [hc, Job.Run.deferred] at h
  · intro v w1 h
    unfold Job.Run at h
    cases hl : lockRunning (c.threads t).job c.world with
    | none => simp [hl] at h
    | some wl =>
      simp only [hl, Job.Run.locked] at h
      cases hc : env.Interceptor Background (some (c.threads t).job) (Job.Run.handler env)
          (Job.Run.enter k (c.threads t).job wl) with
      | ret err wc =>
        simp only [hc, Job.Run.deferred] at h
        cases hu : unlockRunning (c.threads t).job
            (Job.Run.finish k env (c.threads t).job c.world.now err wc) <;> simp [hu] at h
      | panic v1 wc =>
        simp only [hc, Job.Run.deferred] at h
        cases hu : unlockRunning (c.threads t).job wc with
        | none => simp [hu] at h
        | some wu =>
          simp only [hu, Outcome.panic.injEq] at h
          obtain ⟨hv, hw⟩ := h
          subst hv hw
          simp [stepsOf, stepThread, ha, hpc, hl, hc, hu]
      | blocked wc => simp [hc, Job.Run.deferred] at h
      | fatal m wc => simp [hc, Job.Run.deferred] at h

/-! ## Claim about the handler given to the interceptor -/

/-- C11: in `Run` the job body is reached only through the handler given to the interceptor. A
call of that handler with a context and a job whose `inner` is set is one execution of
`inner.Run` with that context, in the state of the call, and ends as that execution ends, its
error unchanged. `Run` depends on the job bodies through that handler alone; with an interceptor
that does not call its handler, `Run` ends the same way whatever the body is, so the body does not
execute. With an interceptor that hands a derived context to its handler, the chain invoked by
`Run` is the execution of the body with the derived context. -/
theorem Run_body_through_handler (k : StatusConsts) (env : Env) (j : Nat) (w : World) :
    (∀ ctx p v w1, (w1.jobs p).inner = some v →
      Job.Run.handler env ctx (some p) w1 = env.innerRun v ctx w1) ∧
    (∀ env2 : Env, env2.Interceptor = env.Interceptor →
      env2.durationString = env.durationString →
      Job.Run.handler env2 = Job.Run.handler env → Job.Run k env2 j w = Job.Run k env j w) ∧
    ((∀ ctx job h1 h2 w1, env.Interceptor ctx job h1 w1 = env.Interceptor ctx job h2 w1) →
      ∀ body, Job.Run k { env with innerRun := body } j w = Job.Run k env j w) ∧
    (∀ (derive : Context → Context) wl v, lockRunning j w = some wl →
      (wl.jobs j).inner = some v →
      (∀ ctx job next w1, env.Interceptor ctx job next w1 = next (derive ctx) job w1) →
      env.Interceptor Background (some j) (Job.Run.handler env) (Job.Run.enter k j wl)
        = env.innerRun v (derive Background) (Job.Run.enter k j wl)) := by
  refine ⟨?_, ?_, ?_, ?_⟩
  · intro ctx p v w1 h
    simp [Job.Run.handler, h]
  · intro env2 hI hd hh
    unfold Job.Run Job.Run.locked Job.Run.finish
    simp only [hI, hd, hh]
  · intro hshort body
    unfold Job.Run Job.Run.locked Job.Run.finish
    cases lockRunning j w with
    | none => rfl
    | some wl =>
      simp only []
      rw [hshort Background (some j) (Job.Run.handler { env with innerRun := body })
        (Job.Run.handler env) (Job.Run.enter k j wl)]
  · intro derive wl v _ hin hI
    have hin2 : ((Job.Run.enter k j wl).jobs j).inner = some v := by
      rw [Run_enter_job]
      exact hin
    rw [hI]
    simp [Job.Run.handler, hin2]

/-- Witness of C11: with the interceptor that returns `denied` without calling its handler, `Run`
returns although the body would abort the process, and is the same `Run` with the recording body,
which records nothing; with the interceptor that adds a request id, the body runs once and sees
the derived context; with the interceptor that calls its handler twice, the body runs twice, each
time with the context of that call. -/
theorem Run_body_through_handler_witness :
    Job.Run sampleConsts { shortCircuitEnv with innerRun := recordingBody } 0 (sampleWorld 1)
      = Job.Run sampleConsts shortCircuitEnv 0 (sampleWorld 1) ∧
    (Job.Run sampleConsts shortCircuitEnv 0 (sampleWorld 1)).isRet = true ∧
    (Job.Run sampleConsts shortCircuitEnv 0 (sampleWorld 1)).world.ext = [] ∧
    ((Job.Run sampleConsts shortCircuitEnv 0 (sampleWorld 1)).world.jobs 0).Error = "denied" ∧
    (Job.Run sampleConsts derivingEnv 0 (sampleWorld 1)).world.ext = ["request-id=42"] ∧
    (Job.Run sampleConsts retryingEnv 0 (sampleWorld 1)).world.ext
      = ["attempt=1", "attempt=2"] :=
  ⟨(Run_body_through_handler sampleConsts shortCircuitEnv 0 (sampleWorld 1)).2.2.1
      (fun _ _ _ _ _ => rfl) recordingBody,
   rfl, rfl, rfl, by decide, by decide⟩

/-! ## Claim about the latency -/

/-- The latency `Run` writes after the interceptor returned. -/
theorem Run_finish_latency (k : StatusConsts) (env : Env) (j : Nat) (start : Nat) (err : error)
    (w : World) :
    ((Job.Run.finish k env j start err w).jobs j).Latency = env.durationString (since start w) := by
  cases err <;> simp [Job.Run.finish, Job.UpdateStatus, storeStatus, since]

/-- An action of a goroutine that is before line 48 reads the clock into `start` and changes
nothing else; an action of a goroutine past line 48 leaves it past line 48 with the `start` it
had. -/
theorem stepThread_start (k : StatusConsts) (env : Env) (t : Nat) (c c1 : Config)
    (hs : stepThread k env t c = some c1) :
    ((c.threads t).pc = .begin ∧ (c1.threads t).pc = .atLock c.world.now ∧
      c1.world = c.world) ∨
    ((c.threads t).pc ≠ .begin ∧ (c1.threads t).pc ≠ .begin ∧
      ∀ s, (c1.threads t).pc.startOf = some s → (c.threads t).pc.startOf = some s) := by
  unfold stepThread at hs
  split at hs
  case isFalse => exact absurd hs (by simp)
  case isTrue =>
    cases hpc : (c.threads t).pc with
    | begin =>
      simp only [hpc, Option.some.injEq] at hs
      subst hs
      exact Or.inl ⟨rfl, by simp, rfl⟩
    | atLock start =>
      simp only [hpc] at hs
      cases hl : lockRunning (c.threads t).job c.world with
      | none => simp [hl] at hs
      | some wl =>
        simp only [hl, Option.some.injEq] at hs
        subst hs
        exact Or.inr ⟨by simp, by simp, by simp [Pc.startOf]⟩
    | holding start =>
      simp only [hpc, Option.some.injEq] at hs
      subst hs
      exact Or.inr ⟨by simp, by simp, by simp [Pc.startOf]⟩
    | inChain start =>
      simp only [hpc] at hs
      cases ho : env.Interceptor Background (some (c.threads t).job) (Job.Run.handler env)
          c.world with
      | ret err w1 =>
        simp only [ho, Option.some.injEq] at hs
        subst hs
        exact Or.inr ⟨by simp, by simp, by simp [Pc.startOf]⟩
      | panic v w1 =>
        simp only [ho, Option.some.injEq] at hs
        subst hs
        exact Or.inr ⟨by simp, by simp, by simp [Pc.startOf]⟩
      | blocked w1 =>
        simp only [ho, Option.some.injEq] at hs
        subst hs
        exact Or.inr ⟨by simp, by simp, by simp [Pc.startOf]⟩
      | fatal m w1 =>
        simp only [ho, Option.some.injEq] at hs
        subst hs
        exact Or.inr ⟨by simp, by simp, by simp [Pc.startOf]⟩
    | chainDone start err =>
      simp only [hpc, Option.some.injEq] at hs
      subst hs
      exact Or.inr ⟨by simp, by simp, by simp [Pc.startOf]⟩
    | leaving e =>
      simp only [hpc] at hs
      cases hu : unlockRunning (c.threads t).job c.world with
      | none =>
        simp only [hu, Option.some.injEq] at hs
        subst hs
        exact Or.inr ⟨by simp, by simp, by simp [Pc.startOf]⟩
      | some w1 =>
        simp only [hu, Option.some.injEq] at hs
        subst hs
        exact Or.inr ⟨by simp, by simp, by simp [Pc.startOf]⟩
    | done e => simp [hpc] at hs
    | stuck => simp [hpc] at hs
    | aborted m => simp [hpc] at hs

/-- A goroutine that has read its start time keeps it, whatever it and the other goroutines do
and however much time passes. -/
theorem Steps_start_kept (k : StatusConsts) (env : Env) (t : Nat) (c0 c : Config) (T0 : Nat)
    (h0 : (c0.threads t).pc ≠ .begin)
    (hs0 : ∀ s, (c0.threads t).pc.startOf = some s → s = T0)
    (h : Steps k env c0 c) :
    (c.threads t).pc ≠ .begin ∧ ∀ s, (c.threads t).pc.startOf = some s → s = T0 := by
  induction h with
  | refl => exact ⟨h0, hs0⟩
  | step c1 c2 u _ hs ih =>
    by_cases hu : u = t
    · subst hu
      rcases stepThread_start k env u c1 c2 hs with ⟨hb, _, _⟩ | ⟨_, hn, hk⟩
      · exact absurd hb ih.1
      · exact ⟨hn, fun s h2 => ih.2 s (hk s h2)⟩
    · obtain ⟨pc, w, a, rfl⟩ := stepThread_eq_move k env u c1 c2 hs
      have e : ({ c1.move u pc w with alive := a } : Config).threads t = c1.threads t :=
        Config.move_threads_other c1 u t pc w (Ne.symm hu)
      rw [e]
      exact ih
  | tick c1 d _ ih => exact ih

/-- A schedule leads to a configuration reached by steps. -/
theorem Steps_runSchedule (k : StatusConsts) (env : Env) (c0 : Config) (sched : List Nat) :
    ∀ c, Steps k env c0 c → Steps k env c0 (runSchedule k env sched c) := by
  induction sched with
  | nil => intro c h; exact h
  | cons t sched ih =>
    intro c h
    unfold runSchedule
    cases hs : stepThread k env t c with
    | none => exact ih c h
    | some c1 => exact ih c1 (Steps.step c c1 t h hs)

/-- C12 as amended: the start time of the latency is read on entry to `Run`, before the lock is
requested. A goroutine before line 48, in a configuration `c0`, moves by reading the clock of `c0`
into `start`, whether the lock is free or not; whatever then happens, in any interleaving and
however long it waits for the lock, when it comes to execute lines 62-73 after the interceptor
returned, with or without error, its `start` is still that reading and the `Latency` it writes
is the time elapsed since then, so the wait for the lock is counted. -/
theorem Latency_from_entry (k : StatusConsts) (env : Env) (t : Nat) (c0 cE c c1 : Config)
    (start : Nat) (err : error)
    (hbegin : (c0.threads t).pc = .begin)
    (hentry : stepThread k env t c0 = some cE)
    (hsteps : Steps k env cE c)
    (hpc : (c.threads t).pc = .chainDone start err)
    (hfin : stepThread k env t c = some c1) :
    cE.world = c0.world ∧ (cE.threads t).pc = .atLock c0.world.now ∧
    start = c0.world.now ∧
    (c1.world.jobs (c.threads t).job).Latency
      = env.durationString (since c0.world.now c.world) := by
  rcases stepThread_start k env t c0 cE hentry with ⟨_, hE, hw⟩ | ⟨hn, _, _⟩
  · have hkept := Steps_start_kept k env t cE c c0.world.now (by simp [hE])
      (by intro s hs; rw [hE] at hs; simpa [Pc.startOf] using hs.symm) hsteps
    have hstart : start = c0.world.now := hkept.2 start (by simp [hpc, Pc.startOf])
    refine ⟨hw, hE, hstart, ?_⟩
    subst hstart
    unfold stepThread at hfin
    split at hfin
    case isFalse => exact absurd hfin (by simp)
    case isTrue =>
      simp only [hpc, Option.some.injEq] at hfin
      subst hfin
      simp only [Config.move_world]
      exact Run_finish_latency k env _ _ err c.world
  · exact absurd hbegin hn

/-- Witness of C12 as amended: the second of two firings reads the clock at 0, waits 100
nanoseconds for the lock and five more for the first firing's body, and runs its own body for
five; the latency it writes is measured from 0. -/
theorem Latency_from_entry_witness :
    (returnedConfig.threads 1).pc = .chainDone 0 none ∧
    (finishedConfig.world.jobs 0).Latency
      = sampleEnv.durationString (since enteredConfig.world.now returnedConfig.world) ∧
    sampleEnv.durationString (since enteredConfig.world.now returnedConfig.world) = "110ns" :=
  ⟨rfl,
   (Latency_from_entry sampleConsts sampleEnv 1 enteredConfig
      (runSchedule sampleConsts sampleEnv [1] enteredConfig) returnedConfig finishedConfig 0 none
      rfl rfl
      (Steps_runSchedule sampleConsts sampleEnv _ [1] _
        (Steps_runSchedule sampleConsts sampleEnv _ [0, 0, 0, 1, 1] _
          (Steps.tick _ 100
            (Steps_runSchedule sampleConsts sampleEnv _ [1] _ Steps.refl))))
      rfl rfl).2.2.2,
   by decide⟩

/-- Counterexample to C12 as stated: two firings of one job. The second begins `Run` at clock
reading 0 and cannot take the lock, which the first holds; it takes the lock and marks the job
running at clock reading 105, and its chain returns at 110. The latency it writes is `110ns`, the
time since it began `Run`, and not `5ns`, the time since it took the lock and set the status. -/
theorem Latency_counts_lock_wait :
    (waitingConfig.threads 1).pc = .atLock 0 ∧
    stepThread sampleConsts sampleEnv 1 waitingConfig = none ∧
    (lockedConfig.threads 1).pc = .inChain 0 ∧
    lockedConfig.world.now = 105 ∧
    (lockedConfig.world.jobs 0).Status = StatusCodeRunning ∧
    (lockedConfig.world.jobs 0).running = true ∧
    returnedConfig.world.now = 110 ∧
    (finishedConfig.world.jobs 0).Latency = "110ns" ∧
    sampleEnv.durationString (since lockedConfig.world.now returnedConfig.world) = "5ns" ∧
    (finishedConfig.world.jobs 0).Latency
      ≠ sampleEnv.durationString (since lockedConfig.world.now returnedConfig.world) := by
  refine ⟨rfl, rfl, rfl, rfl, rfl, rfl, rfl, by decide, by decide, by decide⟩

/-! ## Claim about the lifecycle -/

theorem Run_enter_jobs_other (k : StatusConsts) (j q : Nat) (w : World) (h : q ≠ j) :
    (Job.Run.enter k j w).jobs q = w.jobs q := by
  simp [Job.Run.enter, Job.UpdateStatus, storeStatus, World.setJob, h]

theorem Run_finish_jobs_other (k : StatusConsts) (env : Env) (j q : Nat) (start : Nat)
    (err : error) (w : World) (h : q ≠ j) :
    (Job.Run.finish k env j start err w).jobs q = w.jobs q := by
  cases err <;> simp [Job.Run.finish, Job.UpdateStatus, storeStatus, World.setJob, h]

/-- Taking or releasing a lock writes the lock bit only. -/
theorem setRunning_status (w : World) (j q : Nat) (b : Bool) :
    ((w.setJob j { w.jobs j with running := b }).jobs q).Status = (w.jobs q).Status ∧
    ((w.setJob j { w.jobs j with running := b }).jobs q).status = (w.jobs q).status := by
  by_cases h : q = j
  · subst h; simp
  · rw [World.setJob_jobs_other _ _ _ _ h]
    exact ⟨rfl, rfl⟩

/-- What one action of goroutine `u` is: the move it makes and the state it leaves, by the point
it was at. -/
theorem stepThread_cases (k : StatusConsts) (env : Env) (u : Nat) (c c1 : Config)
    (hs : stepThread k env u c = some c1) :
    ∃ pc1 w1 a, c1 = { c.move u pc1 w1 with alive := a } ∧
      (((c.threads u).pc = .begin ∧ pc1 = .atLock c.world.now ∧ w1 = c.world) ∨
       (∃ s, (c.threads u).pc = .atLock s ∧ pc1 = .holding s ∧
          lockRunning (c.threads u).job c.world = some w1) ∨
       (∃ s, (c.threads u).pc = .holding s ∧ pc1 = .inChain s ∧
          w1 = Job.Run.enter k (c.threads u).job c.world) ∨
       (∃ s, (c.threads u).pc = .inChain s ∧ (∀ s1, pc1 ≠ .inChain s1) ∧
          w1 = (env.Interceptor Background (some (c.threads u).job) (Job.Run.handler env)
            c.world).world) ∨
       (∃ s e, (c.threads u).pc = .chainDone s e ∧ pc1 = .leaving .returned ∧
          w1 = Job.Run.finish k env (c.threads u).job s e c.world) ∨
       (∃ e, (c.threads u).pc = .leaving e ∧ (∀ s1, pc1 ≠ .inChain s1) ∧
          (unlockRunning (c.threads u).job c.world = some w1 ∨ w1 = c.world))) := by
  unfold stepThread at hs
  split at hs
  case isFalse => exact absurd hs (by simp)
  case isTrue =>
    cases hpc : (c.threads u).pc with
    | begin =>
      simp only [hpc, Option.some.injEq] at hs
      exact ⟨_, _, c.alive, hs.symm, Or.inl ⟨rfl, rfl, rfl⟩⟩
    | atLock start =>
      simp only [hpc] at hs
      cases hl : lockRunning (c.threads u).job c.world with
      | none => simp [hl] at hs
      | some wl =>
        simp only [hl, Option.some.injEq] at hs
        exact ⟨_, _, c.alive, hs.symm, Or.inr (Or.inl ⟨start, rfl, rfl, rfl⟩)⟩
    | holding start =>
      simp only [hpc, Option.some.injEq] at hs
      exact ⟨_, _, c.alive, hs.symm, Or.inr (Or.inr (Or.inl ⟨start, rfl, rfl, rfl⟩))⟩
    | inChain start =>
      simp only [hpc] at hs
      cases ho : env.Interceptor Background (some (c.threads u).job) (Job.Run.handler env)
          c.world with
      | ret err w1 =>
        simp only [ho, Option.some.injEq] at hs
        exact ⟨_, _, c.alive, hs.symm,
          Or.inr (Or.inr (Or.inr (Or.inl ⟨start, rfl, by simp, rfl⟩)))⟩
      | panic v w1 =>
        simp only [ho, Option.some.injEq] at hs
        exact ⟨_, _, c.alive, hs.symm,
          Or.inr (Or.inr (Or.inr (Or.inl ⟨start, rfl, by simp, rfl⟩)))⟩
      | blocked w1 =>
        simp only [ho, Option.some.injEq] at hs
        exact ⟨_, _, c.alive, hs.symm,
          Or.inr (Or.inr (Or.inr (Or.inl ⟨start, rfl, by simp, rfl⟩)))⟩
      | fatal m w1 =>
        simp only [ho, Option.some.injEq] at hs
        exact ⟨_, _, false, hs.symm,
          Or.inr (Or.inr (Or.inr (Or.inl ⟨start, rfl, by simp, rfl⟩)))⟩
    | chainDone start err =>
      simp only [hpc, Option.some.injEq] at hs
      exact ⟨_, _, c.alive, hs.symm,
        Or.inr (Or.inr (Or.inr (Or.inr (Or.inl ⟨start, err, rfl, rfl, rfl⟩))))⟩
    | leaving e =>
      simp only [hpc] at hs
      cases hu : unlockRunning (c.threads u).job c.world with
      | none =>
        simp only [hu, Option.some.injEq] at hs
        exact ⟨_, _, false, hs.symm,
          Or.inr (Or.inr (Or.inr (Or.inr (Or.inr ⟨e, rfl, by simp, Or.inr rfl⟩))))⟩
      | some w1 =>
        simp only [hu, Option.some.injEq] at hs
        exact ⟨_, _, c.alive, hs.symm,
          Or.inr (Or.inr (Or.inr (Or.inr (Or.inr ⟨e, rfl, by simp, Or.inl rfl⟩))))⟩
    | done e => simp [hpc] at hs
    | stuck => simp [hpc] at hs
    | aborted m => simp [hpc] at hs

/-- One action keeps this true: the job of every goroutine that is inside the interceptor chain
is marked running. -/
theorem inChain_running_step (k : StatusConsts) (env : Env) (u : Nat) (c c1 : Config)
    (hst : env.KeepsStatus) (hl : LockInv c.threads c.world)
    (hinv : ∀ t s, (c.threads t).pc = .inChain s →
      (c.world.jobs (c.threads t).job).Status = StatusCodeRunning ∧
      (c.world.jobs (c.threads t).job).status = k.statusRunning)
    (hs : stepThread k env u c = some c1) :
    ∀ t s, (c1.threads t).pc = .inChain s →
      (c1.world.jobs (c1.threads t).job).Status = StatusCodeRunning ∧
      (c1.world.jobs (c1.threads t).job).status = k.statusRunning := by
  obtain ⟨pc1, w1, a, rfl, hcase⟩ := stepThread_cases k env u c c1 hs
  intro t s ht
  by_cases htu : t = u
  · subst htu
    have hpc1 : pc1 = .inChain s := by
      have := ht
      simp only [Config.move_threads_self] at this
      exact this
    have hjob : ({ c.move t pc1 w1 with alive := a } : Config).threads t
        = { c.threads t with pc := pc1 } := Config.move_threads_self c t pc1 w1
    rw [hjob]
    show (w1.jobs (c.threads t).job).Status = StatusCodeRunning ∧
      (w1.jobs (c.threads t).job).status = k.statusRunning
    rcases hcase with ⟨_, h2, _⟩ | ⟨s1, _, h2, _⟩ | ⟨s1, _, _, h3⟩ | ⟨s1, _, h2, _⟩ |
      ⟨s1, e, _, h2, _⟩ | ⟨e, _, h2, _⟩
    · rw [hpc1] at h2; exact absurd h2 (by simp)
    · rw [hpc1] at h2; exact absurd h2 (by simp)
    · rw [h3, Run_enter_job]
      exact ⟨rfl, rfl⟩
    · exact absurd hpc1 (h2 s)
    · rw [hpc1] at h2; exact absurd h2 (by simp)
    · exact absurd hpc1 (h2 s)
  · have hth : ({ c.move u pc1 w1 with alive := a } : Config).threads t = c.threads t :=
      Config.move_threads_other c u t pc1 w1 htu
    rw [hth] at ht ⊢
    show (w1.jobs (c.threads t).job).Status = StatusCodeRunning ∧
      (w1.jobs (c.threads t).job).status = k.statusRunning
    have hold := hinv t s ht
    rcases hcase with ⟨_, _, h3⟩ | ⟨s1, _, _, h3⟩ | ⟨s1, _, _, h3⟩ | ⟨s1, _, _, h3⟩ |
      ⟨s1, e, h1, _, h3⟩ | ⟨e, _, _, h3⟩
    · rw [h3]; exact hold
    · obtain ⟨_, hw⟩ := lockRunning_eq_some h3
      rw [hw, (setRunning_status c.world _ _ true).1, (setRunning_status c.world _ _ true).2]
      exact hold
    · by_cases hj : (c.threads t).job = (c.threads u).job
      · rw [h3, hj, Run_enter_job]
        exact ⟨rfl, rfl⟩
      · rw [h3, Run_enter_jobs_other k _ _ c.world hj]
        exact hold
    · rw [h3, (hst _ c.world _).1, (hst _ c.world _).2]
      exact hold
    · have hj : (c.threads t).job ≠ (c.threads u).job := by
        intro e1
        exact htu (hl.2.1 t u (by simp [ht, Pc.critical]) (by simp [h1, Pc.critical]) e1)
      rw [h3, Run_finish_jobs_other k env _ _ s1 e c.world hj]
      exact hold
    · rcases h3 with h3 | h3
      · obtain ⟨_, hw⟩ := unlockRunning_eq_some h3
        rw [hw, (setRunning_status c.world _ _ false).1,
          (setRunning_status c.world _ _ false).2]
        exact hold
      · rw [h3]; exact hold

/-- In every reachable configuration the job of every goroutine that is inside the interceptor
chain is marked running, when no chain writes the status fields or the locks. -/
theorem inChain_running (k : StatusConsts) (env : Env) (c : Config) (henv : env.KeepsLocks)
    (hst : env.KeepsStatus) (hr : Reachable k env c) :
    ∀ t s, (c.threads t).pc = .inChain s →
      (c.world.jobs (c.threads t).job).Status = StatusCodeRunning ∧
      (c.world.jobs (c.threads t).job).status = k.statusRunning := by
  induction hr with
  | init c h =>
    intro t s ht
    rw [h.2.1 t] at ht
    exact absurd ht (by simp)
  | step c c1 u hrc hs ih =>
    exact inChain_running_step k env u c c1 hst (LockInv_reachable k env c henv hrc) ih hs
  | tick c d _ ih => exact ih

theorem sampleEnv_keepsStatus : sampleEnv.KeepsStatus := by
  intro j w q
  simp only [sampleEnv, Job.Run.handler]
  cases (w.jobs j).inner with
  | none => exact ⟨rfl, rfl⟩
  | some v =>
    simp only []
    split_ifs <;> exact ⟨rfl, rfl⟩

/-- C10 as amended: `Run` follows the lifecycle as far as its own writes go. It invokes the
interceptor chain only with the job's `Status` equal to `StatusCodeRunning`: a probe placed in
front of the chain never fires, and once the lock is taken `Run` is the locked section, which
invokes the chain in the state `enter` leaves. When no interceptor or job body writes the status
fields, then in every configuration reached by goroutines executing `Run`, in any interleaving,
the `Status` of the job of a goroutine that is inside the interceptor chain is
`StatusCodeRunning`, from the beginning of the invocation to its end. Whenever `Run` returns
normally, whatever the chain did, the job's `Status` is `StatusCodeIdle` or `StatusCodeError`,
so it is neither `StatusCodeUp` nor `StatusCodeDown` nor `StatusCodeRunning`. -/
theorem Run_lifecycle (k : StatusConsts) (env : Env) (j : Nat) (w : World)
    (hk : k.casesDistinct = true) :
    Job.Run k (env.checkedRunning k) j w = Job.Run k env j w ∧
    (∀ wl, lockRunning j w = some wl →
      ((Job.Run.enter k j wl).jobs j).Status = StatusCodeRunning ∧
      Job.Run k env j w = Job.Run.deferred j (Job.Run.locked k env j w.now Background wl)) ∧
    (∀ c, env.KeepsLocks → env.KeepsStatus → Reachable k env c →
      ∀ t s, (c.threads t).pc = .inChain s →
        (c.world.jobs (c.threads t).job).Status = StatusCodeRunning) ∧
    ∀ w1, Job.Run k env j w = .ret () w1 →
      ((w1.jobs j).Status = StatusCodeIdle ∨ (w1.jobs j).Status = StatusCodeError) ∧
      (w1.jobs j).Status ≠ StatusCodeUp ∧ (w1.jobs j).Status ≠ StatusCodeDown ∧
      (w1.jobs j).Status ≠ StatusCodeRunning := by
  refine ⟨Run_checkedRunning k env j w, ?_, ?_, ?_⟩
  · intro wl hl
    exact ⟨by rw [Run_enter_job], Run_of_lock k env j w wl hl⟩
  · intro c henv hst hr t s ht
    exact (inChain_running k env c henv hst hr t s ht).1
  intro w1 h
  obtain ⟨wl, wc, err, _, _, hjob⟩ := Run_ret_inv k env j w w1 h
  rw [hjob, Run_finish_job k hk]
  cases err <;> simp

/-- Witness of C10 as amended: in the configuration where the second of two firings is inside the
interceptor chain, the job is marked running; and the run of the sample job whose body fails
returns in one of the two final states. -/
theorem Run_lifecycle_witness :
    sampleConsts.casesDistinct = true ∧
    (lockedConfig.threads 1).pc = .inChain 0 ∧
    (lockedConfig.world.jobs 0).Status = StatusCodeRunning ∧
    (((Job.Run sampleConsts sampleEnv 0 (sampleWorld 0)).world.jobs 0).Status = StatusCodeIdle ∨
     ((Job.Run sampleConsts sampleEnv 0 (sampleWorld 0)).world.jobs 0).Status = StatusCodeError) :=
  ⟨by decide, rfl,
   (Run_lifecycle sampleConsts sampleEnv 0 (sampleWorld 0) (by decide)).2.2.1 lockedConfig
      sampleEnv_keepsLocks sampleEnv_keepsStatus
      (Reachable_runSchedule sampleConsts sampleEnv [0, 0, 0, 1, 1] _
        (Reachable.tick _ 100
          (Reachable_runSchedule sampleConsts sampleEnv [1, 1] _
            (Reachable_runSchedule sampleConsts sampleEnv [0, 0, 0] _
              (Reachable.init _ (sampleConfig_initial 1))))))
      1 0 rfl,
   ((Run_lifecycle sampleConsts sampleEnv 0 (sampleWorld 0) (by decide)).2.2.2 _
      (Outcome.eq_ret_of_isRet _ rfl)).1⟩

/-- Counterexample to C10 as stated: a chain whose outer interceptor writes the exported field
`Status` of the job it is handed. `Run` invokes the chain with `Status` `StatusCodeRunning`, yet
the inner interceptor, inside the invocation, finds `StatusCodeDown`; `Run` returns with `Status`
`StatusCodeIdle`. -/
theorem Run_status_written_in_chain :
    ((Job.Run.enter sampleConsts 0
      ((sampleWorld 1).setJob 0 { sampleJob 1 with running := true })).jobs 0).Status
        = StatusCodeRunning ∧
    (Job.Run sampleConsts meddlingEnv 0 (sampleWorld 1)).isRet = true ∧
    (Job.Run sampleConsts meddlingEnv 0 (sampleWorld 1)).world.ext = ["DOWN"] ∧
    ((Job.Run sampleConsts meddlingEnv 0 (sampleWorld 1)).world.jobs 0).Status
      = StatusCodeIdle := by
  refine ⟨rfl, rfl, ?_, rfl⟩
  decide

end Cronx

namespace Cache

open Cronx (Context Background)

variable {σo σd : Type}

/-! ## Claims about the redis migrator -/

/-- C6: each read command of the migrator (`Get`, `HGet`, `Exists`, `HExists`, `TTL`) queries the
destination first; a found answer (non-nil bytes, `true`, a TTL above zero) without error is
returned and the origin is not queried; otherwise the origin is queried, its value is returned
when its call succeeds, and an error is returned exactly when its call fails. -/
theorem read_commands_read_through (r : RedisMigrator σo σd) (ctx : Context) (key field : String)
    (s : Store σo σd) :
    ReadsThrough (fun res => res ≠ none) (.Get ctx key) (r.destination.Get ctx key)
      (r.origin.Get ctx key) s (r.Get ctx key s) ∧
    ReadsThrough (fun res => res ≠ none) (.HGet ctx key field) (r.destination.HGet ctx key field)
      (r.origin.HGet ctx key field) s (r.HGet ctx key field s) ∧
    ReadsThrough (fun res => res = true) (.Exists ctx key) (r.destination.Exists ctx key)
      (r.origin.Exists ctx key) s (r.Exists ctx key s) ∧
    ReadsThrough (fun res => res = true) (.HExists ctx key field)
      (r.destination.HExists ctx key field) (r.origin.HExists ctx key field) s
      (r.HExists ctx key field s) ∧
    ReadsThrough (fun res => res > 0) (.TTL ctx key) (r.destination.TTL ctx key)
      (r.origin.TTL ctx key) s (r.TTL ctx key s) := by
  refine ⟨?_, ?_, ?_, ?_, ?_⟩
  · constructor
    · intro h
      simp [RedisMigrator.Get, callDestination, h]
    · intro h
      have h1 : ¬ ((r.destination.Get ctx key s.destination).1.err = none ∧
          (r.destination.Get ctx key s.destination).1.res ≠ none) := h
      cases ho : (r.origin.Get ctx key s.origin).1.err <;>
        simp [RedisMigrator.Get, callDestination, callOrigin, if_neg h1, ho]
  · constructor
    · intro h
      simp [RedisMigrator.HGet, callDestination, h]
    · intro h
      have h1 : ¬ ((r.destination.HGet ctx key field s.destination).1.err = none ∧
          (r.destination.HGet ctx key field s.destination).1.res ≠ none) := h
      cases ho : (r.origin.HGet ctx key field s.origin).1.err <;>
        simp [RedisMigrator.HGet, callDestination, callOrigin, if_neg h1, ho]
  · constructor
    · intro h
      simp [RedisMigrator.Exists, callDestination, h]
    · intro h
      have h1 : ¬ ((r.destination.Exists ctx key s.destination).1.err = none ∧
          (r.destination.Exists ctx key s.destination).1.res = true) := h
      cases ho : (r.origin.Exists ctx key s.origin).1.err <;>
        simp [RedisMigrator.Exists, callDestination, callOrigin, if_neg h1, ho]
  · constructor
    · intro h
      simp [RedisMigrator.HExists, callDestination, h]
    · intro h
      have h1 : ¬ ((r.destination.HExists ctx key field s.destination).1.err = none ∧
          (r.destination.HExists ctx key field s.destination).1.res = true) := h
      cases ho : (r.origin.HExists ctx key field s.origin).1.err <;>
        simp [RedisMigrator.HExists, callDestination, callOrigin, if_neg h1, ho]
  · constructor
    · intro h
      simp [RedisMigrator.TTL, callDestination, h]
    · intro h
      have h1 : ¬ ((r.destination.TTL ctx key s.destination).1.err = none ∧
          (r.destination.TTL ctx key s.destination).1.res > 0) := h
      cases ho : (r.origin.TTL ctx key s.origin).1.err <;>
        simp [RedisMigrator.TTL, callDestination, callOrigin, if_neg h1, ho]

/-- Witness of C6: `Get` of a key that only the origin holds asks the destination, then the origin,
and returns the origin's value. -/
theorem read_commands_read_through_witness :
    (sampleMigrator.Get Background "a" sampleStore).2.calls =
      [⟨.destination, .Get Background "a"⟩, ⟨.origin, .Get Background "a"⟩] ∧
    (sampleMigrator.Get Background "a" sampleStore).1 = ⟨some [49], none⟩ := by
  have h := ((read_commands_read_through sampleMigrator Background "a" "f" sampleStore).1).2
    (by decide)
  exact ⟨congrArg Store.calls h.1, h.2.1 rfl⟩

/-- C7 as amended: `SetEX` and `HSet` call the destination once and the origin not at all, so the
origin's state is unchanged; the returned error is nil when the destination's call succeeds and
otherwise the destination's error wrapped with the operation name; the result of `HSet` is the
destination's when its call succeeds and `false` when it fails. -/
theorem create_commands_destination_only (r : RedisMigrator σo σd) (ctx : Context)
    (key field value : String) (seconds : Int) (s : Store σo σd) :
    ((r.SetEX ctx key seconds value s).2 =
        { origin := s.origin
          destination := (r.destination.SetEX ctx key seconds value s.destination).2
          calls := s.calls ++ [⟨.destination, .SetEX ctx key seconds value⟩] } ∧
      (r.SetEX ctx key seconds value s).1 =
        (r.destination.SetEX ctx key seconds value s.destination).1.map
          (fun err => .E err "cache/RedisMigrator.SetEX")) ∧
    ((r.HSet ctx key field value s).2 =
        { origin := s.origin
          destination := (r.destination.HSet ctx key field value s.destination).2
          calls := s.calls ++ [⟨.destination, .HSet ctx key field value⟩] } ∧
      (r.HSet ctx key field value s).1.err =
        (r.destination.HSet ctx key field value s.destination).1.err.map
          (fun err => .E err "cache/RedisMigrator.HSet") ∧
      ((r.destination.HSet ctx key field value s.destination).1.err = none →
        (r.HSet ctx key field value s).1.res =
          (r.destination.HSet ctx key field value s.destination).1.res) ∧
      ((r.destination.HSet ctx key field value s.destination).1.err ≠ none →
        (r.HSet ctx key field value s).1.res = false)) := by
  constructor
  · cases hd : (r.destination.SetEX ctx key seconds value s.destination).1 <;>
      simp [RedisMigrator.SetEX, callDestination, hd]
  · cases hd : (r.destination.HSet ctx key field value s.destination).1.err <;>
      simp [RedisMigrator.HSet, callDestination, hd]

/-- Witness of C7 as amended: `SetEX` on the sample migration writes the key to the destination and
leaves the origin as it was. -/
theorem create_commands_destination_only_witness :
    (sampleMigrator.SetEX Background "b" 60 "2" sampleStore).2.origin = [("a", "1")] ∧
    (sampleMigrator.SetEX Background "b" 60 "2" sampleStore).2.destination = [("b", "2")] ∧
    (sampleMigrator.SetEX Background "b" 60 "2" sampleStore).2.calls
      = [⟨.destination, .SetEX Background "b" 60 "2"⟩] ∧
    (sampleMigrator.SetEX Background "b" 60 "2" sampleStore).1 = none :=
  ⟨congrArg Store.origin
      (create_commands_destination_only sampleMigrator Background "b" "f" "2" 60 sampleStore).1.1,
   congrArg Store.destination
      (create_commands_destination_only sampleMigrator Background "b" "f" "2" 60 sampleStore).1.1,
   congrArg Store.calls
      (create_commands_destination_only sampleMigrator Background "b" "f" "2" 60 sampleStore).1.1,
   (create_commands_destination_only sampleMigrator Background "b" "f" "2" 60 sampleStore).1.2⟩

/-- Counterexample to C7 as stated: a destination whose `HSet` fails while reporting `true`. The
migrator's `HSet` returns `false`, which is not the result of the destination's call. -/
theorem HSet_result_not_destinations :
    ((downClient.HSet Background "k" "f" "v" 0).1.res = true) ∧
    ((RedisMigrator.HSet { origin := listClient, destination := downClient } Background
        "k" "f" "v" { origin := [], destination := 0, calls := [] }).1.res = false) ∧
    ((RedisMigrator.HSet { origin := listClient, destination := downClient } Background
        "k" "f" "v" { origin := [], destination := 0, calls := [] }).1.err
      = some (.E (.client "connection refused") "cache/RedisMigrator.HSet")) := by
  decide

/-- C8: `Expire` and `Del` call the origin and then the destination, once each and with the
arguments they were given, whatever the origin's call returns. -/
theorem update_commands_both (r : RedisMigrator σo σd) (ctx : Context) (key : String)
    (keys : List Any) (seconds : Int) (s : Store σo σd) :
    (r.Expire ctx key seconds s).2 =
      { origin := (r.origin.Expire ctx key seconds s.origin).2
        destination := (r.destination.Expire ctx key seconds s.destination).2
        calls := s.calls ++
          [⟨.origin, .Expire ctx key seconds⟩, ⟨.destination, .Expire ctx key seconds⟩] } ∧
    (r.Del ctx keys s).2 =
      { origin := (r.origin.Del ctx keys s.origin).2
        destination := (r.destination.Del ctx keys s.destination).2
        calls := s.calls ++ [⟨.origin, .Del ctx keys⟩, ⟨.destination, .Del ctx keys⟩] } := by
  constructor <;> simp [RedisMigrator.Expire, RedisMigrator.Del, callDestination, callOrigin]

/-- Witness of C8: with an origin every call of which fails, `Expire` and `Del` still call the
origin and then the destination, once each. -/
theorem update_commands_both_witness :
    (RedisMigrator.Expire { origin := downClient, destination := listClient } Background "a" 60
        { origin := 0, destination := [("a", "1")], calls := [] }).2.calls
      = [⟨.origin, .Expire Background "a" 60⟩, ⟨.destination, .Expire Background "a" 60⟩] ∧
    (RedisMigrator.Del { origin := downClient, destination := listClient } Background [.str "a"]
        { origin := 0, destination := [("a", "1")], calls := [] }).2
      = { origin := 1, destination := []
          calls := [⟨.origin, .Del Background [.str "a"]⟩,
                    ⟨.destination, .Del Background [.str "a"]⟩] } :=
  ⟨congrArg Store.calls
      (update_commands_both { origin := downClient, destination := listClient } Background "a"
        [.str "a"] 60 { origin := 0, destination := [("a", "1")], calls := [] }).1,
   (update_commands_both { origin := downClient, destination := listClient } Background "a"
        [.str "a"] 60 { origin := 0, destination := [("a", "1")], calls := [] }).2⟩

/-- C13: `Expire` and `Del` return the result and the error of the call on the destination, as
they are; the origin's reply does not enter the returned value: with any other origin, in any
state, the returned value is the same. -/
theorem update_commands_reply (r : RedisMigrator σo σd) (ctx : Context) (key : String)
    (keys : List Any) (seconds : Int) (s : Store σo σd) :
    (r.Expire ctx key seconds s).1 = (r.destination.Expire ctx key seconds s.destination).1 ∧
    (r.Del ctx keys s).1 = (r.destination.Del ctx keys s.destination).1 ∧
    (∀ (σ : Type) (other : RedisItf σ) (so : σ),
      (RedisMigrator.Expire { origin := other, destination := r.destination } ctx key seconds
          { origin := so, destination := s.destination, calls := s.calls }).1
        = (r.Expire ctx key seconds s).1 ∧
      (RedisMigrator.Del { origin := other, destination := r.destination } ctx keys
          { origin := so, destination := s.destination, calls := s.calls }).1
        = (r.Del ctx keys s).1) := by
  refine ⟨rfl, rfl, ?_⟩
  intro σ other so
  exact ⟨rfl, rfl⟩

/-- Witness of C13: the origin's `Expire` and `Del` fail, the destination's succeed, and the
migrator returns the destination's result with a nil error. -/
theorem update_commands_reply_witness :
    (downClient.Expire Background "a" 60 0).1.err = some (.client "connection refused") ∧
    (RedisMigrator.Expire { origin := downClient, destination := listClient } Background "a" 60
        { origin := 0, destination := [("a", "1")], calls := [] }).1 = ⟨true, none⟩ ∧
    (RedisMigrator.Del { origin := downClient, destination := listClient } Background [.str "a"]
        { origin := 0, destination := [("a", "1")], calls := [] }).1 = ⟨1, none⟩ :=
  ⟨rfl,
   (update_commands_reply { origin := downClient, destination := listClient } Background "a"
      [.str "a"] 60 { origin := 0, destination := [("a", "1")], calls := [] }).1,
   (update_commands_reply { origin := downClient, destination := listClient } Background "a"
      [.str "a"] 60 { origin := 0, destination := [("a", "1")], calls := [] }).2.1⟩

/-! ## Claim about `NewRedisMigrator` -/

/-- The call that finds the guard not done builds the instance. -/
theorem NewRedisMigrator_first (origin : RedisItf σo) (destination : RedisItf σd)
    (g : Globals σo σd) (h : g.onceNewRedisMigrator.done = false) :
    NewRedisMigrator origin destination g =
      ((some g.heap.length, g.onceNewRedisMigratorErr),
        { onceNewRedisMigrator := { done := true }
          onceNewRedisMigratorRes := some g.heap.length
          onceNewRedisMigratorErr := g.onceNewRedisMigratorErr
          heap := g.heap ++ [{ origin := origin, destination := destination }] }) := by
  simp [NewRedisMigrator, Once.Do, h]

/-- A call that finds the guard done returns the stored pointer and changes nothing. -/
theorem NewRedisMigrator_later (origin : RedisItf σo) (destination : RedisItf σd)
    (g : Globals σo σd) (h : g.onceNewRedisMigrator.done = true) :
    NewRedisMigrator origin destination g =
      ((g.onceNewRedisMigratorRes, g.onceNewRedisMigratorErr), g) := by
  simp [NewRedisMigrator, Once.Do, h]

/-- Calls that find the guard done all return the stored pointer and change nothing. -/
theorem newRedisMigrators_later (later : List (RedisItf σo × RedisItf σd)) (g : Globals σo σd)
    (h : g.onceNewRedisMigrator.done = true) :
    newRedisMigrators later g =
      (List.replicate later.length (g.onceNewRedisMigratorRes, g.onceNewRedisMigratorErr), g) := by
  induction later with
  | nil => rfl
  | cons a rest ih =>
    obtain ⟨origin, destination⟩ := a
    simp [newRedisMigrators, NewRedisMigrator_later origin destination g h, ih,
      List.replicate_succ]

/-- C14: from variables whose guard is not done and whose error is nil, as at program start, the
first call of `NewRedisMigrator` returns, with a nil error, a pointer to a new instance whose
origin and destination are the arguments of that call; every later call, whatever its arguments,
returns the same pointer with a nil error and changes nothing, so no second instance is built and
the instance keeps the first call's arguments. -/
theorem NewRedisMigrator_once (origin : RedisItf σo) (destination : RedisItf σd)
    (later : List (RedisItf σo × RedisItf σd)) (g : Globals σo σd)
    (hdone : g.onceNewRedisMigrator.done = false) (herr : g.onceNewRedisMigratorErr = none) :
    (NewRedisMigrator origin destination g).1 = (some g.heap.length, none) ∧
    (NewRedisMigrator origin destination g).2.heap
      = g.heap ++ [{ origin := origin, destination := destination }] ∧
    (newRedisMigrators later (NewRedisMigrator origin destination g).2).1
      = List.replicate later.length (some g.heap.length, none) ∧
    (newRedisMigrators later (NewRedisMigrator origin destination g).2).2
      = (NewRedisMigrator origin destination g).2 := by
  rw [NewRedisMigrator_first origin destination g hdone, herr]
  refine ⟨rfl, rfl, ?_, ?_⟩
  · rw [newRedisMigrators_later later _ rfl]
  · rw [newRedisMigrators_later later _ rfl]

/-- Witness of C14: at program start, a first call and then a call with another origin. Both
return the pointer to the one instance, which holds the first call's arguments. -/
theorem NewRedisMigrator_once_witness :
    (newRedisMigrators [(downClient, listClient), ({ downClient with Close := fun n => n + 1 },
        listClient)] (Globals.initial Nat (List (String × String)))).1
      = [(some 0, none), (some 0, none)] ∧
    (newRedisMigrators [(downClient, listClient), ({ downClient with Close := fun n => n + 1 },
        listClient)] (Globals.initial Nat (List (String × String)))).2.heap
      = [{ origin := downClient, destination := listClient }] := by
  have h := NewRedisMigrator_once downClient listClient
    [({ downClient with Close := fun n => n + 1 }, listClient)]
    (Globals.initial Nat (List (String × String))) rfl rfl
  exact ⟨by simp only [newRedisMigrators, h.1, h.2.2.1]; rfl,
    by simp only [newRedisMigrators, h.2.2.2, h.2.1]; rfl⟩

end Cache
